import Mathlib

/-!
Verification of the ffthumbs filter-graph compiler, validator, process
session and progress parser, shallowly embedded from the Go sources.

Conventions of the embedding:
* Go `int` and `time.Duration` (an `int64` nanosecond count) are modelled
  as `Int`; `time.Millisecond = 1000000 ns`, `time.Microsecond = 1000 ns`.
* Go strings are Lean `String`s; substring counting is done on `List Char`.
* Go pointers that can be `nil` are modelled as `Option`.
* The external sha256 hex digest (`crypto/sha256` + `encoding/hex`) and the
  external `fmt.Sprintf("%g", ...)` float renderer are external library
  collaborators; they are passed as explicit function parameters
  (`h : List UInt8 → String`, `fmtG : Int → String`) so that every theorem
  quantifies over their behavior, constrained only where the claim needs it.
* Go map iteration order is unspecified; the grouped structure is built as an
  association list in key first-insertion order, and the graph assembly is
  additionally related to every reordering of that structure by an explicit
  rearrangement relation (`GroupedRearranges`), which models the set of
  strings an execution of the Go code may produce.
-/

namespace Ffthumbs

/-! ## Data model (from the Go type declarations) -/

/-- Go `time.Duration` constants, in nanoseconds. -/
def timeMicrosecond : Int := 1000

def timeMillisecond : Int := 1000000

def timeSecond : Int := 1000000000

/-- Go `ScaleBehavior` is an `int`; the three declared constants follow. -/
abbrev ScaleBehavior := Int

def ScaleBehaviorNone : ScaleBehavior := 0

def ScaleBehaviorFillToKeepAspectRatio : ScaleBehavior := 1

def ScaleBehaviorCropToFit : ScaleBehavior := 2

/-- Go `OutputType` is an `int`; the two declared constants follow. -/
abbrev OutputType := Int

def OutputTypeThumbs : OutputType := 0

def OutputTypeSprites : OutputType := 1

/- Field types `Behavior` and `«Type»` are written `Int` rather than the
`ScaleBehavior`/`OutputType` aliases (which are definitionally `Int`) so that
arithmetic automation sees the underlying integer type directly. -/
structure ScaleConfig where
  Width : Int
  Height : Int
  Behavior : Int
  deriving DecidableEq, Repr, Inhabited

structure SpriteDimensions where
  Columns : Int
  Rows : Int
  deriving DecidableEq, Repr, Inhabited

structure SpritesConfig where
  Dimensions : SpriteDimensions
  deriving DecidableEq, Repr, Inhabited

/-- Go `OutputConfig`; `idx` is the compiler-assigned position (set by
`NewGenerator` as the position in the output list), the mutable `inName` and
`outName` fields are modelled as derived functions further below. `DstPath`
plays no role in the claims under study and is omitted. -/
structure OutputConfig where
  idx : Nat
  Scale : ScaleConfig
  SnapshotInterval : Int
  «Type» : Int
  Sprites : SpritesConfig
  Quality : Int
  deriving DecidableEq, Repr, Inhabited

/-- Models the `NewGenerator` loop `for idx, output := range cfg.Outputs
\x7b output.idx = idx \x7d`. -/
def assignIdx (outputs : List OutputConfig) : List OutputConfig :=
  outputs.mapIdx fun i o => { o with idx := i }

/-! ## Validator (src/validator.go) -/

inductive ValidationErrType where
  | NoOutputs
  | Quality
  | SnapshotInterval
  | OutputType
  | Scale
  | SpiteDims
  | ScaleBehavior
  deriving DecidableEq, Repr

structure ValidationError where
  «Type» : ValidationErrType
  Msg : String
  deriving DecidableEq, Repr

/-- The `switch output.Type` statement of the validator loop body: `Thumbs`
falls through, `Sprites` checks the sprite dimensions, anything else is an
unknown type. -/
def validateOutputKind (idx : Nat) (o : OutputConfig) : Option ValidationError :=
  if o.«Type» = OutputTypeThumbs then
    none
  else if o.«Type» = OutputTypeSprites then
    if o.Sprites.Dimensions.Rows < 1 then
      some ⟨.SpiteDims, "output " ++ toString idx ++
        " sprite rows dimension is less than 1"⟩
    else if o.Sprites.Dimensions.Columns < 1 then
      some ⟨.SpiteDims, "output " ++ toString idx ++
        " sprite columns dimension is less than 1"⟩
    else
      none
  else
    some ⟨.OutputType, "output " ++ toString idx ++ " has unkwown type: " ++
      toString o.«Type»⟩

/-- The `switch output.Scale.Behavior` statement of the validator loop body. -/
def validateOutputBehavior (idx : Nat) (o : OutputConfig) :
    Option ValidationError :=
  if o.Scale.Behavior = ScaleBehaviorNone ∨
      o.Scale.Behavior = ScaleBehaviorFillToKeepAspectRatio ∨
      o.Scale.Behavior = ScaleBehaviorCropToFit then
    none
  else
    some ⟨.ScaleBehavior, "output " ++ toString idx ++
      " has unknown scale behavior: " ++ toString o.Scale.Behavior⟩

/-- Body of the `for idx, output := range outputs` loop of `validateOutputs`:
the first violated rule for one output, in source order. -/
def validateOutput (idx : Nat) (o : OutputConfig) : Option ValidationError :=
  if o.Quality ≠ 0 ∧ (o.Quality < 1 ∨ o.Quality > 31) then
    some ⟨.Quality, "output " ++ toString idx ++
      " has wrong quality, valid values are 1-31, got " ++ toString o.Quality⟩
  else if o.SnapshotInterval < timeMillisecond then
    some ⟨.SnapshotInterval, "output " ++ toString idx ++
      " snapshot interval is less than one millesecond"⟩
  else if o.Scale.Width < 0 ∧ o.Scale.Height < 0 then
    some ⟨.Scale, "output " ++ toString idx ++
      " scale has both negative width and height"⟩
  else if o.Scale.Width = 0 then
    some ⟨.Scale, "output " ++ toString idx ++ " scale width cannot be zero"⟩
  else if o.Scale.Height = 0 then
    some ⟨.Scale, "output " ++ toString idx ++ " scale height cannot be zero"⟩
  else
    match validateOutputKind idx o with
    | some e => some e
    | none => validateOutputBehavior idx o

/-- The validator loop, with the running index. -/
def validateLoop : Nat → List OutputConfig → Option ValidationError
  | _, [] => none
  | idx, o :: rest =>
    match validateOutput idx o with
    | some e => some e
    | none => validateLoop (idx + 1) rest

/-- Go `validateOutputs`. -/
def validateOutputs (outputs : List OutputConfig) : Option ValidationError :=
  if outputs.isEmpty then
    some ⟨.NoOutputs, "at least one output should be provided"⟩
  else
    validateLoop 0 outputs

/-! ## Claim-side model of the validator contract (for claim C5)

These definitions follow the words of the claim: the first violation per
output in list order, with the claim's stated priority inside each output.
They are to be compared with `validateOutputs`, which is translated from the
source. -/

/-- The claim's per-output rule priority: quality outside `{0} ∪ [1,31]`,
sampling interval below one millisecond, width and height both negative,
width zero, height zero, sprite kind with bad rows or columns, unknown kind,
unknown scale behavior. -/
def specRuleViolation (idx : Nat) (o : OutputConfig) : Option ValidationError :=
  if ¬(o.Quality = 0 ∨ (1 ≤ o.Quality ∧ o.Quality ≤ 31)) then
    some ⟨.Quality, "output " ++ toString idx ++
      " has wrong quality, valid values are 1-31, got " ++ toString o.Quality⟩
  else if o.SnapshotInterval < timeMillisecond then
    some ⟨.SnapshotInterval, "output " ++ toString idx ++
      " snapshot interval is less than one millesecond"⟩
  else if o.Scale.Width < 0 ∧ o.Scale.Height < 0 then
    some ⟨.Scale, "output " ++ toString idx ++
      " scale has both negative width and height"⟩
  else if o.Scale.Width = 0 then
    some ⟨.Scale, "output " ++ toString idx ++ " scale width cannot be zero"⟩
  else if o.Scale.Height = 0 then
    some ⟨.Scale, "output " ++ toString idx ++ " scale height cannot be zero"⟩
  else if o.«Type» = OutputTypeSprites ∧ o.Sprites.Dimensions.Rows < 1 then
    some ⟨.SpiteDims, "output " ++ toString idx ++
      " sprite rows dimension is less than 1"⟩
  else if o.«Type» = OutputTypeSprites ∧ o.Sprites.Dimensions.Columns < 1 then
    some ⟨.SpiteDims, "output " ++ toString idx ++
      " sprite columns dimension is less than 1"⟩
  else if ¬(o.«Type» = OutputTypeThumbs ∨ o.«Type» = OutputTypeSprites) then
    some ⟨.OutputType, "output " ++ toString idx ++ " has unkwown type: " ++
      toString o.«Type»⟩
  else if ¬(o.Scale.Behavior = ScaleBehaviorNone ∨
      o.Scale.Behavior = ScaleBehaviorFillToKeepAspectRatio ∨
      o.Scale.Behavior = ScaleBehaviorCropToFit) then
    some ⟨.ScaleBehavior, "output " ++ toString idx ++
      " has unknown scale behavior: " ++ toString o.Scale.Behavior⟩
  else
    none

/-- The claim's list-level loop: first violating output in list order wins. -/
def specFirstViolation : Nat → List OutputConfig → Option ValidationError
  | _, [] => none
  | idx, o :: rest =>
    match specRuleViolation idx o with
    | some e => some e
    | none => specFirstViolation (idx + 1) rest

/-- The claim's whole-list contract: empty list is the first rule, then the
first violating output in list order wins. -/
def specValidate (outputs : List OutputConfig) : Option ValidationError :=
  if outputs = [] then
    some ⟨.NoOutputs, "at least one output should be provided"⟩
  else
    specFirstViolation 0 outputs

/-- The claim's notion of one valid output: all per-output rules satisfied. -/
def SpecValidOutput (o : OutputConfig) : Prop :=
  (o.Quality = 0 ∨ (1 ≤ o.Quality ∧ o.Quality ≤ 31)) ∧
  timeMillisecond ≤ o.SnapshotInterval ∧
  ¬(o.Scale.Width < 0 ∧ o.Scale.Height < 0) ∧
  o.Scale.Width ≠ 0 ∧ o.Scale.Height ≠ 0 ∧
  (o.«Type» = OutputTypeSprites →
    1 ≤ o.Sprites.Dimensions.Rows ∧ 1 ≤ o.Sprites.Dimensions.Columns) ∧
  (o.«Type» = OutputTypeThumbs ∨ o.«Type» = OutputTypeSprites) ∧
  (o.Scale.Behavior = ScaleBehaviorNone ∨
    o.Scale.Behavior = ScaleBehaviorFillToKeepAspectRatio ∨
    o.Scale.Behavior = ScaleBehaviorCropToFit)

instance (o : OutputConfig) : Decidable (SpecValidOutput o) := by
  unfold SpecValidOutput; infer_instance

theorem validateOutputBehavior_flip (idx : Nat) (o : OutputConfig) :
    validateOutputBehavior idx o =
      if ¬(o.Scale.Behavior = ScaleBehaviorNone ∨
          o.Scale.Behavior = ScaleBehaviorFillToKeepAspectRatio ∨
          o.Scale.Behavior = ScaleBehaviorCropToFit) then
        some ⟨.ScaleBehavior, "output " ++ toString idx ++
          " has unknown scale behavior: " ++ toString o.Scale.Behavior⟩
      else none := by
  unfold validateOutputBehavior
  by_cases hb : o.Scale.Behavior = ScaleBehaviorNone ∨
      o.Scale.Behavior = ScaleBehaviorFillToKeepAspectRatio ∨
      o.Scale.Behavior = ScaleBehaviorCropToFit
  · rw [if_pos hb, if_neg (not_not_intro hb)]
  · rw [if_neg hb, if_pos hb]

theorem validateKind_eq_spec (idx : Nat) (o : OutputConfig) :
    (match validateOutputKind idx o with
      | some e => some e
      | none => validateOutputBehavior idx o) =
    (if o.«Type» = OutputTypeSprites ∧ o.Sprites.Dimensions.Rows < 1 then
      some ⟨.SpiteDims, "output " ++ toString idx ++
        " sprite rows dimension is less than 1"⟩
    else if o.«Type» = OutputTypeSprites ∧ o.Sprites.Dimensions.Columns < 1 then
      some ⟨.SpiteDims, "output " ++ toString idx ++
        " sprite columns dimension is less than 1"⟩
    else if ¬(o.«Type» = OutputTypeThumbs ∨ o.«Type» = OutputTypeSprites) then
      some ⟨.OutputType, "output " ++ toString idx ++ " has unkwown type: " ++
        toString o.«Type»⟩
    else if ¬(o.Scale.Behavior = ScaleBehaviorNone ∨
        o.Scale.Behavior = ScaleBehaviorFillToKeepAspectRatio ∨
        o.Scale.Behavior = ScaleBehaviorCropToFit) then
      some ⟨.ScaleBehavior, "output " ++ toString idx ++
        " has unknown scale behavior: " ++ toString o.Scale.Behavior⟩
    else none) := by
  by_cases ht : o.«Type» = OutputTypeThumbs
  · have hs : ¬ o.«Type» = OutputTypeSprites := by rw [ht]; decide
    have e1 : ¬(o.«Type» = OutputTypeSprites ∧ o.Sprites.Dimensions.Rows < 1) :=
      fun hh => hs hh.1
    have e2 : ¬(o.«Type» = OutputTypeSprites ∧ o.Sprites.Dimensions.Columns < 1) :=
      fun hh => hs hh.1
    have e3 : ¬¬(o.«Type» = OutputTypeThumbs ∨ o.«Type» = OutputTypeSprites) :=
      fun hh => hh (Or.inl ht)
    unfold validateOutputKind
    rw [if_pos ht, if_neg e1, if_neg e2, if_neg e3]
    exact validateOutputBehavior_flip idx o
  · by_cases hs : o.«Type» = OutputTypeSprites
    · unfold validateOutputKind
      rw [if_neg ht, if_pos hs]
      by_cases hr : o.Sprites.Dimensions.Rows < 1
      · have e1 : o.«Type» = OutputTypeSprites ∧ o.Sprites.Dimensions.Rows < 1 :=
          ⟨hs, hr⟩
        rw [if_pos hr, if_pos e1]
      · have e1 : ¬(o.«Type» = OutputTypeSprites ∧ o.Sprites.Dimensions.Rows < 1) :=
          fun hh => hr hh.2
        rw [if_neg hr, if_neg e1]
        by_cases hc : o.Sprites.Dimensions.Columns < 1
        · have e2 : o.«Type» = OutputTypeSprites ∧ o.Sprites.Dimensions.Columns < 1 :=
            ⟨hs, hc⟩
          rw [if_pos hc, if_pos e2]
        · have e2 : ¬(o.«Type» = OutputTypeSprites ∧ o.Sprites.Dimensions.Columns < 1) :=
            fun hh => hc hh.2
          have e3 : ¬¬(o.«Type» = OutputTypeThumbs ∨ o.«Type» = OutputTypeSprites) :=
            fun hh => hh (Or.inr hs)
          rw [if_neg hc, if_neg e2, if_neg e3]
          exact validateOutputBehavior_flip idx o
    · have e1 : ¬(o.«Type» = OutputTypeSprites ∧ o.Sprites.Dimensions.Rows < 1) :=
        fun hh => hs hh.1
      have e2 : ¬(o.«Type» = OutputTypeSprites ∧ o.Sprites.Dimensions.Columns < 1) :=
        fun hh => hs hh.1
      have e3 : ¬(o.«Type» = OutputTypeThumbs ∨ o.«Type» = OutputTypeSprites) :=
        fun hh => hh.elim ht hs
      unfold validateOutputKind
      rw [if_neg ht, if_neg hs, if_neg e1, if_neg e2, if_pos e3]

theorem validateOutput_eq_spec (idx : Nat) (o : OutputConfig) :
    validateOutput idx o = specRuleViolation idx o := by
  unfold validateOutput specRuleViolation
  by_cases h1 : o.Quality ≠ 0 ∧ (o.Quality < 1 ∨ o.Quality > 31)
  · rw [if_pos h1,
      if_pos (show ¬(o.Quality = 0 ∨ (1 ≤ o.Quality ∧ o.Quality ≤ 31)) by omega)]
  · rw [if_neg h1,
      if_neg (show ¬¬(o.Quality = 0 ∨ (1 ≤ o.Quality ∧ o.Quality ≤ 31)) by omega)]
    by_cases h2 : o.SnapshotInterval < timeMillisecond
    · rw [if_pos h2, if_pos h2]
    · rw [if_neg h2, if_neg h2]
      by_cases h3 : o.Scale.Width < 0 ∧ o.Scale.Height < 0
      · rw [if_pos h3, if_pos h3]
      · rw [if_neg h3, if_neg h3]
        by_cases h4 : o.Scale.Width = 0
        · rw [if_pos h4, if_pos h4]
        · rw [if_neg h4, if_neg h4]
          by_cases h5 : o.Scale.Height = 0
          · rw [if_pos h5, if_pos h5]
          · rw [if_neg h5, if_neg h5]
            exact validateKind_eq_spec idx o

set_option maxHeartbeats 1600000 in
theorem validateOutput_none_iff (idx : Nat) (o : OutputConfig) :
    validateOutput idx o = none ↔ SpecValidOutput o := by
  rw [validateOutput_eq_spec]
  unfold specRuleViolation SpecValidOutput OutputTypeThumbs OutputTypeSprites
    ScaleBehaviorNone ScaleBehaviorFillToKeepAspectRatio ScaleBehaviorCropToFit
    timeMillisecond
  split_ifs <;> simp <;> omega

theorem validateLoop_eq_spec (i : Nat) (l : List OutputConfig) :
    validateLoop i l = specFirstViolation i l := by
  induction l generalizing i with
  | nil => rfl
  | cons o rest ih =>
    show (match validateOutput i o with
      | some e => some e
      | none => validateLoop (i + 1) rest) =
      (match specRuleViolation i o with
      | some e => some e
      | none => specFirstViolation (i + 1) rest)
    rw [validateOutput_eq_spec]
    cases specRuleViolation i o with
    | some e => rfl
    | none => exact ih (i + 1)

theorem validateLoop_none_iff (i : Nat) (l : List OutputConfig) :
    validateLoop i l = none ↔ ∀ o ∈ l, SpecValidOutput o := by
  induction l generalizing i with
  | nil => simp [validateLoop]
  | cons o rest ih =>
    simp only [validateLoop]
    cases h : validateOutput i o with
    | some e =>
      have hno : ¬ SpecValidOutput o := by
        rw [← validateOutput_none_iff i o]; simp [h]
      simp [hno]
    | none =>
      have hyes : SpecValidOutput o := (validateOutput_none_iff i o).mp h
      simp [hyes, ih (i + 1)]

/-- C5. The validator agrees with the claim's contract: the result is exactly
the first violation per output in list order with the claim's priority of
rules inside each output (`specValidate`), and the result is `none` exactly
when the list is nonempty and every output satisfies every rule. The
embedding is a pure function, as the Go code only reads its argument. -/
theorem c5_validator_contract (outputs : List OutputConfig) :
    validateOutputs outputs = specValidate outputs ∧
    (validateOutputs outputs = none ↔
      outputs ≠ [] ∧ ∀ o ∈ outputs, SpecValidOutput o) := by
  refine ⟨?_, ?_⟩
  · unfold validateOutputs specValidate
    cases outputs with
    | nil => rfl
    | cons o rest =>
      rw [if_neg (by simp), if_neg (by simp)]
      exact validateLoop_eq_spec 0 (o :: rest)
  · unfold validateOutputs
    cases outputs with
    | nil => simp
    | cons o rest =>
      rw [if_neg (by simp)]
      rw [validateLoop_none_iff]
      simp

/-! ## Scale/output equality helpers (claim C10)

`nil` pointers are modelled as `none`; the dereferencing arm of the Go code
is unreachable and is modelled with `Option.getD default`. -/

/-- Go `IsSameScaleConfig`, translated clause by clause: both nil, then the
`c1 != nil || c2 != nil` early return, then the field comparison. -/
def IsSameScaleConfig (c1 c2 : Option ScaleConfig) : Bool :=
  if c1.isNone && c2.isNone then
    true
  else if c1.isSome || c2.isSome then
    false
  else
    let a := c1.getD default
    let b := c2.getD default
    a.Width == b.Width && a.Height == b.Height && a.Behavior == b.Behavior

/-- Go method `(*ScaleConfig).Eq`. -/
def ScaleConfig.Eq (c cfg : Option ScaleConfig) : Bool :=
  IsSameScaleConfig c cfg

/-- Go `IsSameOutputConfigFilters`. -/
def IsSameOutputConfigFilters (c1 c2 : Option OutputConfig) : Bool :=
  if c1.isNone && c2.isNone then
    true
  else if c1.isSome || c2.isSome then
    false
  else
    let a := c1.getD default
    let b := c2.getD default
    ScaleConfig.Eq (some a.Scale) (some b.Scale) &&
      a.SnapshotInterval == b.SnapshotInterval

/-- Go method `(*OutputConfig).EqFilters`. -/
def OutputConfig.EqFilters (c cfg : Option OutputConfig) : Bool :=
  IsSameOutputConfigFilters c cfg

/-- C10. The equality helpers return `true` exactly when both arguments are
nil: the `c1 != nil || c2 != nil` guard fires whenever at least one argument
is non-nil, so the field comparison is dead code and equality is not
reflexive on non-nil values; the method forms delegate to the helpers. -/
theorem c10_equality_helpers_nil_only :
    (∀ c1 c2 : Option ScaleConfig,
      IsSameScaleConfig c1 c2 = (c1.isNone && c2.isNone)) ∧
    (∀ c cfg : Option ScaleConfig,
      ScaleConfig.Eq c cfg = IsSameScaleConfig c cfg) ∧
    (∀ c : ScaleConfig, IsSameScaleConfig (some c) (some c) = false) ∧
    (∀ c1 c2 : Option OutputConfig,
      IsSameOutputConfigFilters c1 c2 = (c1.isNone && c2.isNone)) ∧
    (∀ c cfg : Option OutputConfig,
      OutputConfig.EqFilters c cfg = IsSameOutputConfigFilters c cfg) ∧
    (∀ c : OutputConfig, IsSameOutputConfigFilters (some c) (some c) = false) := by
  refine ⟨fun c1 c2 => ?_, fun _ _ => rfl, fun c => ?_, fun c1 c2 => ?_,
    fun _ _ => rfl, fun c => ?_⟩
  · cases c1 <;> cases c2 <;> rfl
  · rfl
  · cases c1 <;> cases c2 <;> rfl
  · rfl

/-! ## Decimal rendering (Go `strconv.Itoa`)

Fuel-based structural recursion so that the kernel can evaluate it. -/

def natDigitsAux : Nat → Nat → List Char
  | 0, _ => []
  | fuel + 1, n =>
    if n < 10 then [Nat.digitChar n]
    else natDigitsAux fuel (n / 10) ++ [Nat.digitChar (n % 10)]

def itoaNat (n : Nat) : String :=
  ⟨natDigitsAux (n + 1) n⟩

/-- Go `strconv.Itoa` on a Go `int` value. -/
def itoa (i : Int) : String :=
  if i < 0 then "-" ++ itoaNat i.natAbs else itoaNat i.toNat

/-! ## Grouping (src `groupOutputs`)

The sha256/hex digest is an external collaborator `h`. Crucially, the Go code
builds the hashed buffer with `binary.LittleEndian.AppendUint64(tmpBytes, v)`
but discards the returned slice, so `tmpBytes` keeps length zero and the
digest is always the digest of the empty byte string; `scaleHashBytes` below
reproduces this faithfully. -/

/-- Go `binary.LittleEndian.AppendUint64`: appends to the slice and returns
the extended slice. -/
def appendUint64LE (b : List UInt8) (v : Nat) : List UInt8 :=
  b ++ (List.range 8).map fun i => UInt8.ofNat (v / 256 ^ i % 256)

/-- Go `uint64(x)` conversion of an `int`. -/
def uint64OfInt (i : Int) : Nat :=
  (i % (2 : Int) ^ 64).toNat

/-- The byte buffer hashed by `groupOutputs` for one scale configuration:
`tmpBytes` starts empty and the `AppendUint64` return values are discarded,
exactly as in the source. -/
def scaleHashBytes (s : ScaleConfig) : List UInt8 :=
  let tmpBytes : List UInt8 := []
  let _ := appendUint64LE tmpBytes (uint64OfInt s.Behavior)
  let _ := appendUint64LE tmpBytes (uint64OfInt s.Width)
  let _ := appendUint64LE tmpBytes (uint64OfInt s.Height)
  tmpBytes

theorem scaleHashBytes_eq_nil (s : ScaleConfig) : scaleHashBytes s = [] := rfl

/-- Inner level of the grouping: an association list from hash string to the
outputs of that bucket, in first-insertion key order, values in append
order. -/
abbrev InnerGroup := List (String × List OutputConfig)

/-- Outer level: association list from snapshot interval to inner group. -/
abbrev Grouped := List (Int × InnerGroup)

/-- Insertion into the inner Go map (create the key or append the value). -/
def insertInner (hashStr : String) (o : OutputConfig) : InnerGroup → InnerGroup
  | [] => [(hashStr, [o])]
  | (k, l) :: rest =>
    if k = hashStr then (k, l ++ [o]) :: rest
    else (k, l) :: insertInner hashStr o rest

/-- Insertion into the outer Go map. -/
def insertGrouped (d : Int) (hashStr : String) (o : OutputConfig) :
    Grouped → Grouped
  | [] => [(d, [(hashStr, [o])])]
  | (k, m) :: rest =>
    if k = d then (k, insertInner hashStr o m) :: rest
    else (k, m) :: insertGrouped d hashStr o rest

/-- Go `groupOutputs`: groups outputs by snapshot interval and then by the
hash of the (always empty) scale byte buffer, `h` being the external sha256
hex digest. -/
def groupOutputs (h : List UInt8 → String) (outputs : List OutputConfig) :
    Grouped :=
  outputs.foldl
    (fun res o => insertGrouped o.SnapshotInterval (h (scaleHashBytes o.Scale)) o res)
    []

/-! ## Filter-graph building blocks (src `buildSelectFramesArg` etc.) -/

/-- Go `time.Duration.Truncate`: round toward zero to a multiple of `m`;
`m ≤ 0` returns `d` unchanged. `Int.tmod` is Go's truncated `%`. -/
def goDurationTruncate (d m : Int) : Int :=
  if m ≤ 0 then d else d - d.tmod m

/-- Go `buildSelectFramesArg`. The external
`fmt.Sprintf("%g", d.Truncate(time.Microsecond).Seconds())` renderer is the
parameter `fmtG`, applied to the truncated nanosecond count. -/
def buildSelectFramesArg (fmtG : Int → String) (o : OutputConfig) : String :=
  "[0:v]select=bitor(gte(t-prev_selected_t\\," ++
  fmtG (goDurationTruncate o.SnapshotInterval timeMicrosecond) ++
  ")\\,isnan(prev_selected_t)),"

/-- Go `buildScaleArg`. -/
def buildScaleArg (s : ScaleConfig) : String :=
  "scale=" ++ itoa s.Width ++ ":" ++ itoa s.Height ++
  (if s.Behavior = ScaleBehaviorFillToKeepAspectRatio then
    ":force_original_aspect_ratio=decrease,pad=" ++ itoa s.Width ++ ":" ++
      itoa s.Height ++ ":-1:-1:color=black"
  else if s.Behavior = ScaleBehaviorCropToFit then
    ":force_original_aspect_ratio=increase,crop=" ++ itoa s.Width ++ ":" ++
      itoa s.Height
  else "")

/-- Go `buildSplitArgThumbOutName`. -/
def buildSplitArgThumbOutName (o : OutputConfig) : String :=
  "thumbs-" ++ itoaNat o.idx ++ "-out"

/-- Go `buildSplitArgSpiteInOutNames` (in name, out name). -/
def buildSplitArgSpiteInOutNames (o : OutputConfig) : String × String :=
  let inName := "sprites-" ++ itoaNat o.idx
  (inName, inName ++ "-out")

/-- The `outName` field assigned by the type switch at the top of Go
`buildSplitArg`; kinds other than thumbs and sprites keep the zero value. -/
def outNameOf (o : OutputConfig) : String :=
  if o.«Type» = OutputTypeThumbs then buildSplitArgThumbOutName o
  else if o.«Type» = OutputTypeSprites then (buildSplitArgSpiteInOutNames o).2
  else ""

/-- The `inName` field assigned by the same switch (sprites only). -/
def inNameOf (o : OutputConfig) : String :=
  if o.«Type» = OutputTypeSprites then (buildSplitArgSpiteInOutNames o).1
  else ""

/-- The `inName`/`outName` pairs carried by the output list after compilation
(Go mutates the outputs; the embedding derives them). -/
def assignedNames (outputs : List OutputConfig) : List (String × String) :=
  outputs.map fun o => (inNameOf o, outNameOf o)

/-- Go `writeFilterOutputName`. -/
def writeFilterOutputName (name : String) : String :=
  "[" ++ name ++ "]"

/-- Go `buildSplitSpriteTileArg`. -/
def buildSplitSpriteTileArg (o : OutputConfig) : String :=
  "tile=" ++ itoa o.Sprites.Dimensions.Columns ++ "x" ++
    itoa o.Sprites.Dimensions.Rows

/-- Go `buildSplitSpriteArg`. -/
def buildSplitSpriteArg (o : OutputConfig) : String :=
  writeFilterOutputName (inNameOf o) ++ buildSplitSpriteTileArg o ++
    writeFilterOutputName (outNameOf o)

/-- One bracketed branch label of the split statement (thumbs use the out
name, sprites the in name; the type switch has no default, so any other kind
writes an empty label). -/
def buildSplitBranch (o : OutputConfig) : String :=
  "[" ++
  (if o.«Type» = OutputTypeThumbs then outNameOf o
   else if o.«Type» = OutputTypeSprites then inNameOf o
   else "") ++ "]"

/-- The branch-label loop of Go `buildSplitArg`, one label per bucket
member in order. -/
def buildSplitBranches : List OutputConfig → String
  | [] => ""
  | o :: rest => buildSplitBranch o ++ buildSplitBranches rest

/-- The trailing loop of Go `buildSplitArg` over `needExtendedProcessing`:
`idx` is the running counter, `total` is `len(outputs)` — the whole bucket
size, exactly as in the source (which compares the counter against the
bucket size, not against the number of sprite statements). -/
def buildSplitExt : List OutputConfig → Nat → Nat → String
  | [], _, _ => ""
  | o :: rest, idx, total =>
    (if o.«Type» = OutputTypeSprites then buildSplitSpriteArg o else "") ++
    (if idx + 1 < total then ";" else "") ++
    buildSplitExt rest (idx + 1) total

/-- Go `buildSplitArg` (the name-assigning switch at its top is modelled by
`outNameOf`/`inNameOf`). -/
def buildSplitArg : List OutputConfig → String
  | [o] =>
    if o.«Type» = OutputTypeThumbs then writeFilterOutputName (outNameOf o)
    else if o.«Type» = OutputTypeSprites then
      "," ++ buildSplitSpriteTileArg o ++ writeFilterOutputName (outNameOf o)
    else ""
  | outputs =>
    ",split=" ++ itoaNat outputs.length ++
    buildSplitBranches outputs ++
    (let exts := outputs.filter fun o => o.«Type» = OutputTypeSprites
     if exts.isEmpty then ""
     else ";" ++ buildSplitExt exts 0 outputs.length)

/-! ## Assembling the graph (src `BuildComplexFilters`) -/

/-- The `len(subgrp) != 1` arm of `BuildComplexFilters`: each output of one
hash bucket gets independent stages, with `;` separators inside a bucket
(and none between hash buckets, as in the source). -/
def multiFragmentOutputs (fmtG : Int → String) : List OutputConfig → String
  | [] => ""
  | [o] =>
    buildSelectFramesArg fmtG o ++ buildScaleArg o.Scale ++ buildSplitArg [o]
  | o :: rest =>
    buildSelectFramesArg fmtG o ++ buildScaleArg o.Scale ++ buildSplitArg [o] ++
    ";" ++ multiFragmentOutputs fmtG rest

def multiFragment (fmtG : Int → String) (subgrp : InnerGroup) : String :=
  String.join (subgrp.map fun e => multiFragmentOutputs fmtG e.2)

/-- The per-interval-bucket fragment of the graph: the `len(subgrp) == 1`
fast path shares one selection and one scale stage for the whole bucket
(Go reads `outputs[0]`; buckets are nonempty by construction, `headD` models
the access). -/
def bucketFragment (fmtG : Int → String) (subgrp : InnerGroup) : String :=
  if subgrp.length = 1 then
    let outputs := (subgrp.headD ("", [])).2
    buildSelectFramesArg fmtG (outputs.headD default) ++
    buildScaleArg (outputs.headD default).Scale ++
    buildSplitArg outputs
  else
    multiFragment fmtG subgrp

/-- The main loop of `BuildComplexFilters` over the grouped outputs:
fragments of the interval buckets joined by `;` (the `mainIdx` counter adds a
separator exactly between consecutive buckets). -/
def buildBody (fmtG : Int → String) : Grouped → String
  | [] => ""
  | [g] => bucketFragment fmtG g.2
  | g :: rest => bucketFragment fmtG g.2 ++ ";" ++ buildBody fmtG rest

/-- Deterministic reading of Go `BuildComplexFilters`, iterating the maps in
key first-insertion order. -/
def BuildComplexFiltersDet (h : List UInt8 → String) (fmtG : Int → String)
    (outputs : List OutputConfig) : Except ValidationError String :=
  match validateOutputs outputs with
  | some e => Except.error e
  | none => Except.ok (buildBody fmtG (groupOutputs h outputs))

/-- All reorderings of the grouped structure that a Go map iteration may
produce: a permutation of the interval entries, and a permutation of each
inner hash-bucket list (bucket member lists themselves are slices and keep
their order). -/
def GroupedRearranges (g g' : Grouped) : Prop :=
  ∃ g1 : Grouped, g.Perm g1 ∧
    List.Forall₂ (fun a b => a.1 = b.1 ∧ a.2.Perm b.2) g1 g'

/-- Go `BuildComplexFilters` as a relation: validation errors are returned
as-is; on success the result is the body built from some admissible map
iteration order. -/
def BuildComplexFilters (h : List UInt8 → String) (fmtG : Int → String)
    (outputs : List OutputConfig) (r : Except ValidationError String) : Prop :=
  match validateOutputs outputs with
  | some e => r = Except.error e
  | none => ∃ g', GroupedRearranges (groupOutputs h outputs) g' ∧
      r = Except.ok (buildBody fmtG g')

theorem GroupedRearranges.refl (g : Grouped) : GroupedRearranges g g :=
  ⟨g, List.Perm.refl g, List.forall₂_same.mpr fun x _ => ⟨rfl, List.Perm.refl x.2⟩⟩

/-- The deterministic reading is one of the admissible outcomes. -/
theorem BuildComplexFiltersDet_builds (h : List UInt8 → String)
    (fmtG : Int → String) (outputs : List OutputConfig) :
    BuildComplexFilters h fmtG outputs (BuildComplexFiltersDet h fmtG outputs) := by
  unfold BuildComplexFilters BuildComplexFiltersDet
  cases validateOutputs outputs with
  | some e => rfl
  | none => exact ⟨groupOutputs h outputs, GroupedRearranges.refl _, rfl⟩

/-! ## Characterizing the grouping

Because the hashed buffer is always empty, the inner map always has exactly
one key, and each interval bucket is just the sublist of outputs with that
interval, in input order. -/

def insertKey (ks : List Int) (d : Int) : List Int :=
  if d ∈ ks then ks else ks ++ [d]

/-- The distinct snapshot intervals, in first-occurrence order: the key
insertion order of the outer Go map. -/
def intervalKeys (outputs : List OutputConfig) : List Int :=
  outputs.foldl (fun ks o => insertKey ks o.SnapshotInterval) []

/-- Closed form of `groupOutputs`: one entry per distinct interval, holding a
single hash bucket with all outputs of that interval in input order. -/
def groupSpec (h : List UInt8 → String) (outputs : List OutputConfig) :
    Grouped :=
  (intervalKeys outputs).map fun d =>
    (d, [(h [], outputs.filter fun o => o.SnapshotInterval = d)])

theorem intervalKeys_append (l : List OutputConfig) (o : OutputConfig) :
    intervalKeys (l ++ [o]) = insertKey (intervalKeys l) o.SnapshotInterval := by
  unfold intervalKeys
  rw [List.foldl_append]
  rfl

theorem mem_insertKey (ks : List Int) (d x : Int) :
    x ∈ insertKey ks d ↔ x ∈ ks ∨ x = d := by
  unfold insertKey
  split_ifs with hd
  · exact ⟨Or.inl, fun hh => hh.elim id fun hx => hx ▸ hd⟩
  · simp

theorem mem_intervalKeys (l : List OutputConfig) (x : Int) :
    x ∈ intervalKeys l ↔ ∃ o ∈ l, o.SnapshotInterval = x := by
  induction l using List.reverseRecOn with
  | nil => simp [intervalKeys]
  | append_singleton l o ih =>
    rw [intervalKeys_append, mem_insertKey, ih]
    constructor
    · rintro (⟨o', ho', hx⟩ | rfl)
      · exact ⟨o', List.mem_append_left _ ho', hx⟩
      · exact ⟨o, List.mem_append_right _ (List.mem_singleton_self o), rfl⟩
    · rintro ⟨o', ho', hx⟩
      rcases List.mem_append.mp ho' with hl | hr
      · exact Or.inl ⟨o', hl, hx⟩
      · rw [List.mem_singleton.mp hr] at hx
        exact Or.inr hx.symm

theorem intervalKeys_nodup (l : List OutputConfig) : (intervalKeys l).Nodup := by
  induction l using List.reverseRecOn with
  | nil => simp [intervalKeys]
  | append_singleton l o ih =>
    rw [intervalKeys_append]
    unfold insertKey
    split_ifs with hd
    · exact ih
    · exact ih.append (List.nodup_singleton _) (List.disjoint_singleton.mpr hd)

theorem insertGrouped_map_notmem (d : Int) (hs : String) (o : OutputConfig)
    (ks : List Int) (f : Int → InnerGroup) (hd : d ∉ ks) :
    insertGrouped d hs o (ks.map fun k => (k, f k)) =
      (ks.map fun k => (k, f k)) ++ [(d, [(hs, [o])])] := by
  induction ks with
  | nil => rfl
  | cons k rest ih =>
    simp only [List.map_cons, insertGrouped]
    rw [if_neg (by rintro rfl; exact hd (List.mem_cons_self k rest))]
    rw [ih fun hmem => hd (List.mem_cons_of_mem _ hmem)]
    rfl

theorem insertGrouped_map_mem (d : Int) (hs : String) (o : OutputConfig)
    (ks : List Int) (f : Int → InnerGroup) (hd : d ∈ ks) (hnd : ks.Nodup) :
    insertGrouped d hs o (ks.map fun k => (k, f k)) =
      ks.map fun k => (k, if k = d then insertInner hs o (f k) else f k) := by
  induction ks with
  | nil => cases hd
  | cons k rest ih =>
    obtain ⟨hk_rest, hnd_rest⟩ := List.nodup_cons.mp hnd
    simp only [List.map_cons, insertGrouped]
    by_cases hk : k = d
    · rw [if_pos hk, if_pos hk]
      congr 1
      apply List.map_congr_left
      intro k' hk'
      rw [if_neg (by rintro rfl; exact hk_rest (by rw [hk]; exact hk'))]
    · rw [if_neg hk, if_neg hk]
      have hd' : d ∈ rest := by
        rcases List.mem_cons.mp hd with h1 | h2
        · exact absurd h1.symm hk
        · exact h2
      rw [ih hd' hnd_rest]

theorem filter_append_single_self (l : List OutputConfig) (o : OutputConfig) :
    (l ++ [o]).filter (fun o' => o'.SnapshotInterval = o.SnapshotInterval) =
      l.filter (fun o' => o'.SnapshotInterval = o.SnapshotInterval) ++ [o] := by
  rw [List.filter_append]
  simp

theorem filter_append_single_ne (l : List OutputConfig) (o : OutputConfig)
    (k : Int) (hk : ¬ o.SnapshotInterval = k) :
    (l ++ [o]).filter (fun o' => o'.SnapshotInterval = k) =
      l.filter (fun o' => o'.SnapshotInterval = k) := by
  rw [List.filter_append]
  simp [hk]

theorem insertGrouped_groupSpec (h : List UInt8 → String)
    (l : List OutputConfig) (o : OutputConfig) :
    insertGrouped o.SnapshotInterval (h (scaleHashBytes o.Scale)) o
      (groupSpec h l) = groupSpec h (l ++ [o]) := by
  rw [scaleHashBytes_eq_nil]
  by_cases hd : o.SnapshotInterval ∈ intervalKeys l
  · unfold groupSpec
    rw [intervalKeys_append]
    unfold insertKey
    rw [if_pos hd]
    rw [insertGrouped_map_mem _ _ _ _ _ hd (intervalKeys_nodup l)]
    apply List.map_congr_left
    intro k hk
    by_cases hkd : k = o.SnapshotInterval
    · subst hkd
      rw [if_pos rfl]
      simp only [insertInner, if_true]
      rw [filter_append_single_self]
    · rw [if_neg hkd,
        filter_append_single_ne _ _ _ (fun hh => hkd (by rw [hh]))]
  · unfold groupSpec
    rw [intervalKeys_append]
    unfold insertKey
    rw [if_neg hd]
    rw [insertGrouped_map_notmem _ _ _ _ _ hd]
    rw [List.map_append]
    congr 1
    · apply List.map_congr_left
      intro k hk
      rw [filter_append_single_ne _ _ _
        (fun hh => hd (by rw [hh]; exact hk))]
    · simp only [List.map_cons, List.map_nil]
      have hfl : l.filter (fun o' => o'.SnapshotInterval = o.SnapshotInterval)
          = [] := by
        rw [List.filter_eq_nil_iff]
        intro a ha
        simp only [decide_eq_true_eq]
        exact fun hh => hd ((mem_intervalKeys l _).mpr ⟨a, ha, hh⟩)
      rw [filter_append_single_self, hfl]
      rfl

theorem groupOutputs_append (h : List UInt8 → String) (l : List OutputConfig)
    (o : OutputConfig) :
    groupOutputs h (l ++ [o]) =
      insertGrouped o.SnapshotInterval (h (scaleHashBytes o.Scale)) o
        (groupOutputs h l) := by
  unfold groupOutputs
  rw [List.foldl_append]
  rfl

theorem groupOutputs_eq_spec (h : List UInt8 → String)
    (outputs : List OutputConfig) :
    groupOutputs h outputs = groupSpec h outputs := by
  induction outputs using List.reverseRecOn with
  | nil => rfl
  | append_singleton l o ih =>
    rw [groupOutputs_append, ih, insertGrouped_groupSpec]

/-! ## Substring occurrence counting

`countSub pat s` counts the positions of `s` where `pat` occurs. The key
lemma splits a count over an append when the left part does not end in a
proper nonempty prefix of the pattern (`noPre`). -/

def countSub (pat : List Char) : List Char → Nat
  | [] => 0
  | c :: rest => (if pat <+: (c :: rest) then 1 else 0) + countSub pat rest

/-- The left part of an append admits no straddling occurrence start. -/
def noPre (pat a : List Char) : Prop :=
  ∀ k, 0 < k → k < pat.length → ¬ (pat.take k <:+ a)

theorem countSub_eq_zero_of_not_mem {pat s : List Char} {c : Char}
    (hc : c ∈ pat) (hs : c ∉ s) : countSub pat s = 0 := by
  induction s with
  | nil => rfl
  | cons a rest ih =>
    have h1 : ¬ pat <+: (a :: rest) := fun hp => hs (hp.sublist.mem hc)
    simp only [countSub]
    rw [if_neg h1, ih fun hm => hs (List.mem_cons_of_mem _ hm)]

theorem countSub_append (pat a b : List Char)
    (H : noPre pat a) :
    countSub pat (a ++ b) = countSub pat a + countSub pat b := by
  induction a with
  | nil => simp [countSub]
  | cons c a' ih =>
    have H' : noPre pat a' := by
      intro k hk1 hk2 hsuf
      exact H k hk1 hk2 (hsuf.trans (List.suffix_cons c a'))
    simp only [List.cons_append, countSub, List.append_eq]
    rw [ih H']
    have hiff : (pat <+: c :: (a' ++ b)) ↔ (pat <+: c :: a') := by
      constructor
      · intro hp
        rcases Nat.lt_or_ge (c :: a').length pat.length with hlen | hlen
        · exfalso
          have hpre : (c :: a') <+: pat := by
            apply List.prefix_of_prefix_length_le
              (List.prefix_append (c :: a') b) _ (Nat.le_of_lt hlen)
            rw [List.cons_append]
            exact hp
          have htake : pat.take (c :: a').length = c :: a' :=
            (List.prefix_iff_eq_take.mp hpre).symm
          apply H (c :: a').length (by simp) hlen
          rw [htake]
        · have h1 : pat = ((c :: a') ++ b).take pat.length := by
            rw [← List.cons_append] at hp
            exact List.prefix_iff_eq_take.mp hp
          rw [List.take_append_of_le_length hlen] at h1
          rw [h1]
          exact List.take_prefix _ _
      · intro hp
        have := hp.trans (List.prefix_append (c :: a') b)
        rwa [List.cons_append] at this
    rw [if_congr hiff rfl rfl]
    omega

/-- Last character of a character list. -/
def last1 (l : List Char) : Option Char :=
  l.reverse.head?

/-- Second-to-last character of a character list. -/
def last2 (l : List Char) : Option Char :=
  l.reverse.tail.head?

theorem last1_append_single (l : List Char) (x : Char) :
    last1 (l ++ [x]) = some x := by
  unfold last1
  rw [List.reverse_append]
  rfl

theorem last1_suffix {p a : List Char} (hsuf : p <:+ a) (hp : p ≠ []) :
    last1 a = last1 p := by
  obtain ⟨t, rfl⟩ := hsuf
  unfold last1
  rw [List.reverse_append]
  cases hrev : p.reverse with
  | nil => exact absurd (by simpa using hrev) hp
  | cons x xs => simp [hrev]

theorem last2_suffix {p a : List Char} (hsuf : p <:+ a) (hp : 2 ≤ p.length) :
    last2 a = last2 p := by
  obtain ⟨t, rfl⟩ := hsuf
  unfold last2
  rw [List.reverse_append]
  cases hrev : p.reverse with
  | nil =>
    exfalso
    have : p = [] := by simpa using hrev
    subst this
    simp at hp
  | cons x xs =>
    cases xs with
    | nil =>
      exfalso
      have : p.length = 1 := by
        have := congrArg List.length hrev
        simpa using this
      omega
    | cons y ys => simp [hrev]

/-! ## The three counted patterns and character-class facts -/

def scalePat : List Char := "scale=".data

def selectPat : List Char := "select=".data

def splitPat : List Char := "split=".data

theorem digitChar_isDigit {k : Nat} (hk : k < 10) :
    (Nat.digitChar k).isDigit = true := by
  interval_cases k <;> decide

theorem natDigitsAux_chars (fuel : Nat) :
    ∀ n, ∀ c ∈ natDigitsAux fuel n, c.isDigit = true := by
  induction fuel with
  | zero => intro n c hc; cases hc
  | succ fuel ih =>
    intro n c hc
    unfold natDigitsAux at hc
    split_ifs at hc with h10
    · rw [List.mem_singleton.mp hc]
      exact digitChar_isDigit h10
    · rcases List.mem_append.mp hc with hl | hr
      · exact ih _ c hl
      · rw [List.mem_singleton.mp hr]
        exact digitChar_isDigit (Nat.mod_lt n (by omega))

theorem natDigitsAux_last (fuel n : Nat) (h : n < fuel) :
    ∃ c, last1 (natDigitsAux fuel n) = some c ∧ c.isDigit = true := by
  induction fuel generalizing n with
  | zero => omega
  | succ fuel ih =>
    unfold natDigitsAux
    split_ifs with h10
    · exact ⟨Nat.digitChar n, rfl, digitChar_isDigit h10⟩
    · exact ⟨Nat.digitChar (n % 10), last1_append_single _ _,
        digitChar_isDigit (Nat.mod_lt n (by omega))⟩

theorem itoaNat_data (n : Nat) : (itoaNat n).data = natDigitsAux (n + 1) n := rfl

theorem itoaNat_chars (n : Nat) : ∀ c ∈ (itoaNat n).data, c.isDigit = true := by
  rw [itoaNat_data]
  exact natDigitsAux_chars (n + 1) n

theorem itoaNat_last (n : Nat) :
    ∃ c, last1 (itoaNat n).data = some c ∧ c.isDigit = true := by
  rw [itoaNat_data]
  exact natDigitsAux_last (n + 1) n (by omega)

theorem last1_cons (c : Char) (l : List Char) (hl : l ≠ []) :
    last1 (c :: l) = last1 l := by
  unfold last1
  rw [List.reverse_cons]
  cases hrev : l.reverse with
  | nil => exact absurd (by simpa using hrev) hl
  | cons x xs => simp [hrev]

theorem last1_ne_nil (l : List Char) (hl : l ≠ []) : ∃ c, last1 l = some c := by
  cases hrev : l.reverse with
  | nil => exact absurd (by simpa using hrev) hl
  | cons x xs => exact ⟨x, by unfold last1; rw [hrev]; rfl⟩

theorem natDigitsAux_ne_nil (fuel n : Nat) (h : n < fuel) :
    natDigitsAux fuel n ≠ [] := by
  obtain ⟨c, hc, _⟩ := natDigitsAux_last fuel n h
  intro hnil
  rw [hnil] at hc
  simp [last1] at hc

theorem itoa_chars (i : Int) :
    ∀ c ∈ (itoa i).data, c.isDigit = true ∨ c = '-' := by
  unfold itoa
  split_ifs with hneg
  · intro c hc
    rcases List.mem_append.mp hc with hl | hr
    · right
      simpa using hl
    · left
      exact itoaNat_chars _ c hr
  · intro c hc
    left
    exact itoaNat_chars _ c hc

theorem itoa_last (i : Int) :
    ∃ c, last1 (itoa i).data = some c ∧ c.isDigit = true := by
  unfold itoa
  split_ifs with hneg
  · obtain ⟨c, hc, hd⟩ := itoaNat_last i.natAbs
    refine ⟨c, ?_, hd⟩
    have hne : (itoaNat i.natAbs).data ≠ [] := by
      rw [itoaNat_data]
      exact natDigitsAux_ne_nil _ _ (by omega)
    show last1 ('-' :: (itoaNat i.natAbs).data) = some c
    rw [last1_cons _ _ hne]
    exact hc
  · exact itoaNat_last i.toNat

/-! ## The `%g` renderer constraints used by the graph claims

For any finite nonnegative second count, Go's `%g` emits only digits, `.`,
`e`, `+`, `-`, and always ends in a digit; this is all the counting needs. -/

def gAlphabet : List Char := "0123456789.e+-".data

def FmtGOK (fmtG : Int → String) : Prop :=
  ∀ d : Int, (fmtG d).data ≠ [] ∧
    (∀ c ∈ (fmtG d).data, c ∈ gAlphabet) ∧
    ∀ c, last1 (fmtG d).data = some c → c.isDigit = true

/-! ## Discharging `noPre` by last characters -/

theorem noPre_scalePat (a : List Char) (c0 : Char) (hc : last1 a = some c0)
    (hn : c0 ∉ (['s', 'c', 'a', 'l', 'e'] : List Char)) : noPre scalePat a := by
  intro k hk1 hk2 hsuf
  rw [show scalePat.length = 6 from rfl] at hk2
  interval_cases k <;>
    · have hx := last1_suffix hsuf (by decide)
      rw [hc] at hx
      simp only [scalePat, last1, String.data] at hx
      exact hn (by rw [Option.some_inj.mp hx]; decide)

theorem noPre_selectPat (a : List Char) (c0 : Char) (hc : last1 a = some c0)
    (hn : c0 ∉ (['s', 'e', 'l', 'c', 't'] : List Char)) : noPre selectPat a := by
  intro k hk1 hk2 hsuf
  rw [show selectPat.length = 7 from rfl] at hk2
  interval_cases k <;>
    · have hx := last1_suffix hsuf (by decide)
      rw [hc] at hx
      simp only [selectPat, last1, String.data] at hx
      exact hn (by rw [Option.some_inj.mp hx]; decide)

theorem noPre_splitPat (a : List Char) (c0 : Char) (hc : last1 a = some c0)
    (hn : c0 ∉ (['s', 'p', 'l', 'i', 't'] : List Char)) : noPre splitPat a := by
  intro k hk1 hk2 hsuf
  rw [show splitPat.length = 6 from rfl] at hk2
  interval_cases k <;>
    · have hx := last1_suffix hsuf (by decide)
      rw [hc] at hx
      simp only [splitPat, last1, String.data] at hx
      exact hn (by rw [Option.some_inj.mp hx]; decide)

/-- A piece ending in `…ut` (the node names ending in `-out`) starts no
`select=` occurrence: every proper prefix of the pattern mismatches on the
last or second-to-last character. -/
theorem noPre_selectPat_out (a : List Char) (h1 : last1 a = some 't')
    (h2 : last2 a = some 'u') : noPre selectPat a := by
  intro k hk1 hk2 hsuf
  rw [show selectPat.length = 7 from rfl] at hk2
  interval_cases k <;>
    first
    | · have hx := last1_suffix hsuf (by decide)
        rw [h1] at hx
        exact absurd hx (by decide)
    | · have hy := last2_suffix hsuf (by decide)
        rw [h2] at hy
        exact absurd hy (by decide)

theorem noPre_splitPat_out (a : List Char) (h1 : last1 a = some 't')
    (h2 : last2 a = some 'u') : noPre splitPat a := by
  intro k hk1 hk2 hsuf
  rw [show splitPat.length = 6 from rfl] at hk2
  interval_cases k <;>
    first
    | · have hx := last1_suffix hsuf (by decide)
        rw [h1] at hx
        exact absurd hx (by decide)
    | · have hy := last2_suffix hsuf (by decide)
        rw [h2] at hy
        exact absurd hy (by decide)

theorem digit_notin_lasts {c : Char} (hd : c.isDigit = true) :
    c ∉ (['s', 'c', 'a', 'l', 'e', 'p', 'i', 't'] : List Char) := by
  intro hm
  fin_cases hm <;> exact absurd hd (by decide)

theorem noPre_scalePat_digit (a : List Char) (c0 : Char)
    (hc : last1 a = some c0) (hd : c0.isDigit = true) : noPre scalePat a :=
  noPre_scalePat a c0 hc fun hm => by
    fin_cases hm <;> exact absurd hd (by decide)

theorem noPre_selectPat_digit (a : List Char) (c0 : Char)
    (hc : last1 a = some c0) (hd : c0.isDigit = true) : noPre selectPat a :=
  noPre_selectPat a c0 hc fun hm => by
    fin_cases hm <;> exact absurd hd (by decide)

theorem noPre_splitPat_digit (a : List Char) (c0 : Char)
    (hc : last1 a = some c0) (hd : c0.isDigit = true) : noPre splitPat a :=
  noPre_splitPat a c0 hc fun hm => by
    fin_cases hm <;> exact absurd hd (by decide)

/-! ## Zero counts on restricted alphabets -/

theorem countSub_zero_digits {pat s : List Char} (hp : 's' ∈ pat)
    (hs : ∀ c ∈ s, c.isDigit = true ∨ c = '-') : countSub pat s = 0 := by
  apply countSub_eq_zero_of_not_mem hp
  intro hm
  rcases hs _ hm with hd | he
  · exact absurd hd (by decide)
  · exact absurd he (by decide)

theorem countSub_zero_gAlphabet {pat s : List Char} (hp : 's' ∈ pat)
    (hs : ∀ c ∈ s, c ∈ gAlphabet) : countSub pat s = 0 := by
  apply countSub_eq_zero_of_not_mem hp
  intro hm
  exact absurd (hs _ hm) (by decide)

/-! ## Generic pattern facts for the three counted patterns -/

/-- The hypothesis bundling the three patterns of interest. -/
def IsGraphPat (pat : List Char) : Prop :=
  pat = scalePat ∨ pat = selectPat ∨ pat = splitPat

theorem noPre_common (pat : List Char) (hpat : IsGraphPat pat)
    (a : List Char) (c0 : Char) (hc : last1 a = some c0)
    (hn : c0.isDigit = true ∨
      c0 ∈ ([',', ':', '=', '[', ']', '-', ';', 'x', 'k', '('] : List Char)) :
    noPre pat a := by
  rcases hpat with rfl | rfl | rfl
  · apply noPre_scalePat a c0 hc
    rcases hn with hd | hm
    · intro hmm
      fin_cases hmm <;> exact absurd hd (by decide)
    · fin_cases hm <;> decide
  · apply noPre_selectPat a c0 hc
    rcases hn with hd | hm
    · intro hmm
      fin_cases hmm <;> exact absurd hd (by decide)
    · fin_cases hm <;> decide
  · apply noPre_splitPat a c0 hc
    rcases hn with hd | hm
    · intro hmm
      fin_cases hmm <;> exact absurd hd (by decide)
    · fin_cases hm <;> decide

theorem noPre_common_out (pat : List Char) (hpat : IsGraphPat pat)
    (a : List Char) (h1 : last1 a = some 't') (h2 : last2 a = some 'u') :
    noPre pat a := by
  rcases hpat with rfl | rfl | rfl
  · exact noPre_scalePat a 't' h1 (by decide)
  · exact noPre_selectPat_out a h1 h2
  · exact noPre_splitPat_out a h1 h2

theorem last1_append (a b : List Char) (hb : b ≠ []) :
    last1 (a ++ b) = last1 b := by
  unfold last1
  rw [List.reverse_append]
  cases hrev : b.reverse with
  | nil => exact absurd (by simpa using hrev) hb
  | cons x xs => simp [hrev]

theorem last2_append (a b : List Char) (hb : 2 ≤ b.length) :
    last2 (a ++ b) = last2 b := by
  unfold last2
  rw [List.reverse_append]
  cases hrev : b.reverse with
  | nil =>
    exfalso
    have : b = [] := by simpa using hrev
    subst this
    simp at hb
  | cons x xs =>
    cases xs with
    | nil =>
      exfalso
      have : b.length = 1 := by
        have := congrArg List.length hrev
        simpa using this
      omega
    | cons y ys => simp [hrev]

/-! ## Node-name pieces -/

theorem thumbOutName_data (o : OutputConfig) :
    (buildSplitArgThumbOutName o).data =
      "thumbs-".data ++ ((itoaNat o.idx).data ++ "-out".data) := by
  simp [buildSplitArgThumbOutName]

theorem spriteInName_data (o : OutputConfig) :
    (buildSplitArgSpiteInOutNames o).1.data =
      "sprites-".data ++ (itoaNat o.idx).data := by
  simp [buildSplitArgSpiteInOutNames]

theorem spriteOutName_data (o : OutputConfig) :
    (buildSplitArgSpiteInOutNames o).2.data =
      ("sprites-".data ++ (itoaNat o.idx).data) ++ "-out".data := by
  simp [buildSplitArgSpiteInOutNames]

theorem thumbOutName_last1 (o : OutputConfig) :
    last1 (buildSplitArgThumbOutName o).data = some 't' := by
  rw [thumbOutName_data, last1_append _ _ (by simp), last1_append _ _ (by decide)]
  decide

theorem thumbOutName_last2 (o : OutputConfig) :
    last2 (buildSplitArgThumbOutName o).data = some 'u' := by
  rw [thumbOutName_data, last2_append _ _ (by simp), last2_append _ _ (by decide)]
  decide

theorem spriteOutName_last1 (o : OutputConfig) :
    last1 (buildSplitArgSpiteInOutNames o).2.data = some 't' := by
  rw [spriteOutName_data, last1_append _ _ (by decide)]
  decide

theorem spriteOutName_last2 (o : OutputConfig) :
    last2 (buildSplitArgSpiteInOutNames o).2.data = some 'u' := by
  rw [spriteOutName_data, last2_append _ _ (by decide)]
  decide

theorem spriteInName_last1 (o : OutputConfig) :
    ∃ c, last1 (buildSplitArgSpiteInOutNames o).1.data = some c ∧
      c.isDigit = true := by
  obtain ⟨c, hc, hd⟩ := itoaNat_last o.idx
  refine ⟨c, ?_, hd⟩
  rw [spriteInName_data, last1_append _ _ ?_]
  · exact hc
  · rw [itoaNat_data]
    exact natDigitsAux_ne_nil _ _ (by omega)

theorem countSub_thumbOutName (pat : List Char) (hpat : IsGraphPat pat)
    (o : OutputConfig) :
    countSub pat (buildSplitArgThumbOutName o).data = 0 := by
  rw [thumbOutName_data]
  rw [countSub_append _ _ _
    (noPre_common pat hpat _ '-' (by decide) (Or.inr (by decide)))]
  obtain ⟨c, hc, hd⟩ := itoaNat_last o.idx
  rw [countSub_append _ _ _ (noPre_common pat hpat _ c hc (Or.inl hd))]
  have h1 : countSub pat "thumbs-".data = 0 := by
    rcases hpat with rfl | rfl | rfl <;> decide
  have h2 : countSub pat (itoaNat o.idx).data = 0 := by
    apply countSub_zero_digits
    · rcases hpat with rfl | rfl | rfl <;> decide
    · intro c' hc'
      exact Or.inl (itoaNat_chars _ _ hc')
  have h3 : countSub pat "-out".data = 0 := by
    rcases hpat with rfl | rfl | rfl <;> decide
  omega

theorem countSub_spriteInName (pat : List Char) (hpat : IsGraphPat pat)
    (o : OutputConfig) :
    countSub pat (buildSplitArgSpiteInOutNames o).1.data = 0 := by
  rw [spriteInName_data]
  rw [countSub_append _ _ _
    (noPre_common pat hpat _ '-' (by decide) (Or.inr (by decide)))]
  have h1 : countSub pat "sprites-".data = 0 := by
    rcases hpat with rfl | rfl | rfl <;> decide
  have h2 : countSub pat (itoaNat o.idx).data = 0 := by
    apply countSub_zero_digits
    · rcases hpat with rfl | rfl | rfl <;> decide
    · intro c' hc'
      exact Or.inl (itoaNat_chars _ _ hc')
  omega

theorem countSub_spriteOutName (pat : List Char) (hpat : IsGraphPat pat)
    (o : OutputConfig) :
    countSub pat (buildSplitArgSpiteInOutNames o).2.data = 0 := by
  rw [spriteOutName_data]
  obtain ⟨c, hc, hd⟩ := spriteInName_last1 o
  rw [spriteInName_data] at hc
  rw [countSub_append _ _ _ (noPre_common pat hpat _ c hc (Or.inl hd))]
  have h1 : countSub pat ("sprites-".data ++ (itoaNat o.idx).data) = 0 := by
    rw [countSub_append _ _ _
      (noPre_common pat hpat _ '-' (by decide) (Or.inr (by decide)))]
    have ha : countSub pat "sprites-".data = 0 := by
      rcases hpat with rfl | rfl | rfl <;> decide
    have hb : countSub pat (itoaNat o.idx).data = 0 := by
      apply countSub_zero_digits
      · rcases hpat with rfl | rfl | rfl <;> decide
      · intro c' hc'
        exact Or.inl (itoaNat_chars _ _ hc')
    omega
  have h3 : countSub pat "-out".data = 0 := by
    rcases hpat with rfl | rfl | rfl <;> decide
  omega

/-! ## Counting over the split machinery -/

theorem countSub_append_zero {pat a b : List Char} (H : noPre pat a)
    (ha : countSub pat a = 0) (hb : countSub pat b = 0) :
    countSub pat (a ++ b) = 0 := by
  rw [countSub_append _ _ _ H, ha, hb]

theorem itoa_ne_nil (i : Int) : (itoa i).data ≠ [] := by
  unfold itoa
  split_ifs with hneg
  · simp
  · rw [itoaNat_data]
    exact natDigitsAux_ne_nil _ _ (by omega)

theorem itoaNat_ne_nil (n : Nat) : (itoaNat n).data ≠ [] := by
  rw [itoaNat_data]
  exact natDigitsAux_ne_nil _ _ (by omega)

theorem countSub_itoa_zero (pat : List Char) (hpat : IsGraphPat pat) (i : Int) :
    countSub pat (itoa i).data = 0 := by
  apply countSub_zero_digits
  · rcases hpat with rfl | rfl | rfl <;> decide
  · exact itoa_chars i

theorem countSub_itoaNat_zero (pat : List Char) (hpat : IsGraphPat pat)
    (n : Nat) : countSub pat (itoaNat n).data = 0 := by
  apply countSub_zero_digits
  · rcases hpat with rfl | rfl | rfl <;> decide
  · intro c hc
    exact Or.inl (itoaNat_chars _ _ hc)

theorem last1_some_ne_nil {y : List Char} {c : Char} (h : last1 y = some c) :
    y ≠ [] := by
  intro hnil
  rw [hnil] at h
  simp [last1] at h

/-- A concatenation whose right part ends in a safe character starts no
pattern occurrence. -/
theorem noPre_append_last (pat : List Char) (hpat : IsGraphPat pat)
    (x y : List Char) (c : Char) (hc : last1 y = some c)
    (hn : c.isDigit = true ∨
      c ∈ ([',', ':', '=', '[', ']', '-', ';', 'x', 'k', '('] : List Char)) :
    noPre pat (x ++ y) :=
  noPre_common pat hpat (x ++ y) c
    (by rw [last1_append _ _ (last1_some_ne_nil hc)]; exact hc) hn

/-- A concatenation whose right part ends in `…ut` starts no pattern
occurrence. -/
theorem noPre_append_out (pat : List Char) (hpat : IsGraphPat pat)
    (x y : List Char) (h1 : last1 y = some 't') (h2 : last2 y = some 'u')
    (hy2 : 2 ≤ y.length) : noPre pat (x ++ y) :=
  noPre_common_out pat hpat (x ++ y)
    (by rw [last1_append _ _ (last1_some_ne_nil h1)]; exact h1)
    (by rw [last2_append _ _ hy2]; exact h2)

theorem thumbOutName_len2 (o : OutputConfig) :
    2 ≤ (buildSplitArgThumbOutName o).data.length := by
  rw [thumbOutName_data, List.length_append, List.length_append]
  have h4 : ("-out".data).length = 4 := by decide
  omega

theorem spriteOutName_len2 (o : OutputConfig) :
    2 ≤ (buildSplitArgSpiteInOutNames o).2.data.length := by
  rw [spriteOutName_data, List.length_append]
  have h4 : ("-out".data).length = 4 := by decide
  omega

theorem branch_last1 (o : OutputConfig) :
    last1 (buildSplitBranch o).data = some ']' := by
  unfold buildSplitBranch
  rw [String.data_append, last1_append _ ("]".data) (by decide)]
  decide

theorem branch_data_ne_nil (o : OutputConfig) :
    (buildSplitBranch o).data ≠ [] := by
  unfold buildSplitBranch
  rw [String.data_append]
  simp

theorem countSub_branch (pat : List Char) (hpat : IsGraphPat pat)
    (o : OutputConfig)
    (hk : o.«Type» = OutputTypeThumbs ∨ o.«Type» = OutputTypeSprites) :
    countSub pat (buildSplitBranch o).data = 0 := by
  unfold buildSplitBranch
  rcases hk with hk | hk
  · rw [if_pos hk]
    unfold outNameOf
    rw [if_pos hk]
    simp only [String.data_append]
    apply countSub_append_zero (b := "]".data)
    · exact noPre_append_out pat hpat _ _ (thumbOutName_last1 o)
        (thumbOutName_last2 o) (thumbOutName_len2 o)
    · apply countSub_append_zero
      · exact noPre_common pat hpat _ '[' (by decide) (Or.inr (by decide))
      · rcases hpat with rfl | rfl | rfl <;> decide
      · exact countSub_thumbOutName pat hpat o
    · rcases hpat with rfl | rfl | rfl <;> decide
  · have hnt : ¬ o.«Type» = OutputTypeThumbs := by rw [hk]; decide
    rw [if_neg hnt, if_pos hk]
    unfold inNameOf
    rw [if_pos hk]
    simp only [String.data_append]
    obtain ⟨c, hc, hd⟩ := spriteInName_last1 o
    apply countSub_append_zero (b := "]".data)
    · exact noPre_append_last pat hpat _ _ c hc (Or.inl hd)
    · apply countSub_append_zero
      · exact noPre_common pat hpat _ '[' (by decide) (Or.inr (by decide))
      · rcases hpat with rfl | rfl | rfl <;> decide
      · exact countSub_spriteInName pat hpat o
    · rcases hpat with rfl | rfl | rfl <;> decide

theorem branches_data_ne_nil (outputs : List OutputConfig)
    (hne : outputs ≠ []) : (buildSplitBranches outputs).data ≠ [] := by
  cases outputs with
  | nil => exact absurd rfl hne
  | cons o rest =>
    show (buildSplitBranch o ++ buildSplitBranches rest).data ≠ []
    rw [String.data_append]
    exact fun hnil => branch_data_ne_nil o (List.append_eq_nil.mp hnil).1

theorem branches_last1 (outputs : List OutputConfig) (hne : outputs ≠ []) :
    last1 (buildSplitBranches outputs).data = some ']' := by
  induction outputs with
  | nil => exact absurd rfl hne
  | cons o rest ih =>
    show last1 (buildSplitBranch o ++ buildSplitBranches rest).data = some ']'
    rw [String.data_append]
    cases rest with
    | nil =>
      show last1 ((buildSplitBranch o).data ++ ("" : String).data) = some ']'
      rw [show ("" : String).data = [] from rfl, List.append_nil]
      exact branch_last1 o
    | cons o2 rest2 =>
      rw [last1_append _ _ (branches_data_ne_nil _ (by simp))]
      exact ih (by simp)

theorem countSub_branches (pat : List Char) (hpat : IsGraphPat pat)
    (outputs : List OutputConfig)
    (hk : ∀ o ∈ outputs,
      o.«Type» = OutputTypeThumbs ∨ o.«Type» = OutputTypeSprites) :
    countSub pat (buildSplitBranches outputs).data = 0 := by
  induction outputs with
  | nil => rfl
  | cons o rest ih =>
    show countSub pat (buildSplitBranch o ++ buildSplitBranches rest).data = 0
    rw [String.data_append]
    apply countSub_append_zero
    · exact noPre_common pat hpat _ ']' (branch_last1 o) (Or.inr (by decide))
    · exact countSub_branch pat hpat o (hk o (List.mem_cons_self o rest))
    · exact ih fun o' ho' => hk o' (List.mem_cons_of_mem _ ho')

theorem tileArg_last1 (o : OutputConfig) :
    ∃ c, last1 (buildSplitSpriteTileArg o).data = some c ∧ c.isDigit = true := by
  obtain ⟨c, hc, hd⟩ := itoa_last o.Sprites.Dimensions.Rows
  refine ⟨c, ?_, hd⟩
  unfold buildSplitSpriteTileArg
  simp only [String.data_append]
  rw [last1_append _ _ (itoa_ne_nil _)]
  exact hc

theorem countSub_tileArg (pat : List Char) (hpat : IsGraphPat pat)
    (o : OutputConfig) :
    countSub pat (buildSplitSpriteTileArg o).data = 0 := by
  unfold buildSplitSpriteTileArg
  simp only [String.data_append]
  obtain ⟨cc, hcc, hdc⟩ := itoa_last o.Sprites.Dimensions.Columns
  apply countSub_append_zero (b := (itoa o.Sprites.Dimensions.Rows).data)
  · exact noPre_append_last pat hpat _ _ 'x' (by decide) (Or.inr (by decide))
  · apply countSub_append_zero (b := "x".data)
    · exact noPre_append_last pat hpat _ _ cc hcc (Or.inl hdc)
    · apply countSub_append_zero
      · exact noPre_common pat hpat _ '=' (by decide) (Or.inr (by decide))
      · rcases hpat with rfl | rfl | rfl <;> decide
      · exact countSub_itoa_zero pat hpat _
    · rcases hpat with rfl | rfl | rfl <;> decide
  · exact countSub_itoa_zero pat hpat _

theorem spriteArg_last1 (o : OutputConfig) :
    last1 (buildSplitSpriteArg o).data = some ']' := by
  unfold buildSplitSpriteArg writeFilterOutputName
  simp only [String.data_append]
  rw [last1_append _ (['['] ++ (outNameOf o).data ++ ([']'] : List Char)) (by simp)]
  rw [last1_append _ ([']'] : List Char) (by decide)]
  decide

theorem spriteArg_data_ne_nil (o : OutputConfig) :
    (buildSplitSpriteArg o).data ≠ [] := by
  unfold buildSplitSpriteArg writeFilterOutputName
  simp only [String.data_append]
  simp

theorem countSub_spriteArg (pat : List Char) (hpat : IsGraphPat pat)
    (o : OutputConfig) (hk : o.«Type» = OutputTypeSprites) :
    countSub pat (buildSplitSpriteArg o).data = 0 := by
  have hnt : ¬ o.«Type» = OutputTypeThumbs := by rw [hk]; decide
  unfold buildSplitSpriteArg writeFilterOutputName
  unfold inNameOf outNameOf
  rw [if_pos hk, if_neg hnt, if_pos hk]
  simp only [String.data_append]
  obtain ⟨ct, hct, hdt⟩ := tileArg_last1 o
  obtain ⟨ci, hci, hdi⟩ := spriteInName_last1 o
  apply countSub_append_zero
  · exact noPre_append_last pat hpat _ _ ct hct (Or.inl hdt)
  · apply countSub_append_zero
    · exact noPre_append_last pat hpat _ _ ']' (by decide) (Or.inr (by decide))
    · apply countSub_append_zero (b := "]".data)
      · exact noPre_append_last pat hpat _ _ ci hci (Or.inl hdi)
      · apply countSub_append_zero
        · exact noPre_common pat hpat _ '[' (by decide) (Or.inr (by decide))
        · rcases hpat with rfl | rfl | rfl <;> decide
        · exact countSub_spriteInName pat hpat o
      · rcases hpat with rfl | rfl | rfl <;> decide
    · exact countSub_tileArg pat hpat o
  · apply countSub_append_zero (b := "]".data)
    · exact noPre_append_out pat hpat _ _ (spriteOutName_last1 o)
        (spriteOutName_last2 o) (spriteOutName_len2 o)
    · apply countSub_append_zero
      · exact noPre_common pat hpat _ '[' (by decide) (Or.inr (by decide))
      · rcases hpat with rfl | rfl | rfl <;> decide
      · exact countSub_spriteOutName pat hpat o
    · rcases hpat with rfl | rfl | rfl <;> decide

theorem countSub_ext (pat : List Char) (hpat : IsGraphPat pat) :
    ∀ (exts : List OutputConfig) (i t : Nat),
    (∀ o ∈ exts, o.«Type» = OutputTypeSprites) →
    countSub pat (buildSplitExt exts i t).data = 0 := by
  intro exts
  induction exts with
  | nil => intro i t _; rfl
  | cons o rest ih =>
    intro i t hk
    have hko := hk o (List.mem_cons_self o rest)
    show countSub pat
      (((if o.«Type» = OutputTypeSprites then buildSplitSpriteArg o else "") ++
        (if i + 1 < t then ";" else "") ++
        buildSplitExt rest (i + 1) t)).data = 0
    rw [if_pos hko]
    simp only [String.data_append]
    by_cases hsep : i + 1 < t
    · rw [if_pos hsep]
      apply countSub_append_zero
      · exact noPre_append_last pat hpat _ _ ';' (by decide) (Or.inr (by decide))
      · apply countSub_append_zero
        · exact noPre_common pat hpat _ ']' (spriteArg_last1 o) (Or.inr (by decide))
        · exact countSub_spriteArg pat hpat o hko
        · rcases hpat with rfl | rfl | rfl <;> decide
      · exact ih (i + 1) t fun o' ho' => hk o' (List.mem_cons_of_mem _ ho')
    · rw [if_neg hsep]
      apply countSub_append_zero
      · rw [show ("" : String).data = [] from rfl, List.append_nil]
        exact noPre_common pat hpat _ ']' (spriteArg_last1 o) (Or.inr (by decide))
      · rw [show ("" : String).data = [] from rfl, List.append_nil]
        exact countSub_spriteArg pat hpat o hko
      · exact ih (i + 1) t fun o' ho' => hk o' (List.mem_cons_of_mem _ ho')

/-! ## Counting over scale and select stages -/

/-- The scale-behavior suffix of `buildScaleArg`, factored out. -/
def scaleSuffix (s : ScaleConfig) : String :=
  if s.Behavior = ScaleBehaviorFillToKeepAspectRatio then
    ":force_original_aspect_ratio=decrease,pad=" ++ itoa s.Width ++ ":" ++
      itoa s.Height ++ ":-1:-1:color=black"
  else if s.Behavior = ScaleBehaviorCropToFit then
    ":force_original_aspect_ratio=increase,crop=" ++ itoa s.Width ++ ":" ++
      itoa s.Height
  else ""

theorem buildScaleArg_data (s : ScaleConfig) :
    (buildScaleArg s).data =
      "scale=".data ++ ((itoa s.Width).data ++ (":".data ++
        ((itoa s.Height).data ++ (scaleSuffix s).data))) := by
  unfold buildScaleArg scaleSuffix
  simp [List.append_assoc]

theorem countSub_scaleSuffix (pat : List Char) (hpat : IsGraphPat pat)
    (s : ScaleConfig) : countSub pat (scaleSuffix s).data = 0 := by
  unfold scaleSuffix
  obtain ⟨cw, hcw, hdw⟩ := itoa_last s.Width
  have hlit1 : last1 (":force_original_aspect_ratio=decrease,pad=".data)
      = some '=' := by decide
  have hlit2 : last1 (":force_original_aspect_ratio=increase,crop=".data)
      = some '=' := by decide
  have hcolon : last1 (":".data) = some ':' := by decide
  split_ifs with h1 h2
  · have hd : ((":force_original_aspect_ratio=decrease,pad=" ++ itoa s.Width ++
        ":" ++ itoa s.Height ++ ":-1:-1:color=black" : String)).data =
        ":force_original_aspect_ratio=decrease,pad=".data ++
          ((itoa s.Width).data ++ (":".data ++ ((itoa s.Height).data ++
            ":-1:-1:color=black".data))) := by
      simp [List.append_assoc]
    rw [hd]
    rw [countSub_append _ _ _
      (noPre_common pat hpat _ '=' hlit1 (Or.inr (by decide)))]
    rw [countSub_append _ _ _
      (noPre_common pat hpat _ cw hcw (Or.inl hdw))]
    rw [countSub_append _ _ _
      (noPre_common pat hpat _ ':' hcolon (Or.inr (by decide)))]
    obtain ⟨chh, hchh, hdhh⟩ := itoa_last s.Height
    rw [countSub_append _ _ _
      (noPre_common pat hpat _ chh hchh (Or.inl hdhh))]
    rw [countSub_itoa_zero pat hpat, countSub_itoa_zero pat hpat]
    have hz1 : countSub pat (":force_original_aspect_ratio=decrease,pad=".data)
        = 0 := by rcases hpat with rfl | rfl | rfl <;> decide
    have hz2 : countSub pat (":".data) = 0 := by
      rcases hpat with rfl | rfl | rfl <;> decide
    have hz3 : countSub pat (":-1:-1:color=black".data) = 0 := by
      rcases hpat with rfl | rfl | rfl <;> decide
    omega
  · have hd : ((":force_original_aspect_ratio=increase,crop=" ++ itoa s.Width ++
        ":" ++ itoa s.Height : String)).data =
        ":force_original_aspect_ratio=increase,crop=".data ++
          ((itoa s.Width).data ++ (":".data ++ (itoa s.Height).data)) := by
      simp [List.append_assoc]
    rw [hd]
    rw [countSub_append _ _ _
      (noPre_common pat hpat _ '=' hlit2 (Or.inr (by decide)))]
    rw [countSub_append _ _ _
      (noPre_common pat hpat _ cw hcw (Or.inl hdw))]
    rw [countSub_append _ _ _
      (noPre_common pat hpat _ ':' hcolon (Or.inr (by decide)))]
    rw [countSub_itoa_zero pat hpat, countSub_itoa_zero pat hpat]
    have hz1 : countSub pat (":force_original_aspect_ratio=increase,crop=".data)
        = 0 := by rcases hpat with rfl | rfl | rfl <;> decide
    have hz2 : countSub pat (":".data) = 0 := by
      rcases hpat with rfl | rfl | rfl <;> decide
    omega
  · rfl

theorem scaleSuffix_chars_last (s : ScaleConfig) :
    ∃ c, last1 ((itoa s.Height).data ++ (scaleSuffix s).data) = some c ∧
      (c.isDigit = true ∨ c = 'k') := by
  unfold scaleSuffix
  obtain ⟨chh, hchh, hdhh⟩ := itoa_last s.Height
  split_ifs with h1 h2
  · refine ⟨'k', ?_, Or.inr rfl⟩
    rw [last1_append]
    · have hd : ((":force_original_aspect_ratio=decrease,pad=" ++ itoa s.Width ++
          ":" ++ itoa s.Height ++ ":-1:-1:color=black" : String)).data =
          (":force_original_aspect_ratio=decrease,pad=".data ++
            ((itoa s.Width).data ++ (":".data ++ (itoa s.Height).data))) ++
            ":-1:-1:color=black".data := by
        simp [List.append_assoc]
      rw [hd, last1_append]
      · decide
      · decide
    · simp
  · refine ⟨chh, ?_, Or.inl hdhh⟩
    rw [last1_append]
    · have hd : ((":force_original_aspect_ratio=increase,crop=" ++ itoa s.Width ++
          ":" ++ itoa s.Height : String)).data =
          (":force_original_aspect_ratio=increase,crop=".data ++
            ((itoa s.Width).data ++ ":".data)) ++ (itoa s.Height).data := by
        simp [List.append_assoc]
      rw [hd, last1_append]
      · exact hchh
      · exact itoa_ne_nil _
    · simp [itoa_ne_nil]
  · rw [show ("" : String).data = [] from rfl, List.append_nil]
    exact ⟨chh, hchh, Or.inl hdhh⟩

theorem countSub_scaleArg (pat : List Char) (hpat : IsGraphPat pat)
    (s : ScaleConfig) :
    countSub pat (buildScaleArg s).data = countSub pat "scale=".data := by
  rw [buildScaleArg_data]
  obtain ⟨cw, hcw, hdw⟩ := itoa_last s.Width
  have hsc : last1 ("scale=".data) = some '=' := by decide
  have hcolon : last1 (":".data) = some ':' := by decide
  obtain ⟨chh, hchh, hdhh⟩ := itoa_last s.Height
  rw [countSub_append _ _ _
    (noPre_common pat hpat _ '=' hsc (Or.inr (by decide)))]
  rw [countSub_append _ _ _
    (noPre_common pat hpat _ cw hcw (Or.inl hdw))]
  rw [countSub_append _ _ _
    (noPre_common pat hpat _ ':' hcolon (Or.inr (by decide)))]
  rw [countSub_append _ _ _
    (noPre_common pat hpat _ chh hchh (Or.inl hdhh))]
  rw [countSub_itoa_zero pat hpat, countSub_itoa_zero pat hpat,
    countSub_scaleSuffix pat hpat]
  have hz : countSub pat (":".data) = 0 := by
    rcases hpat with rfl | rfl | rfl <;> decide
  omega

theorem scaleArg_last1 (s : ScaleConfig) :
    ∃ c, last1 (buildScaleArg s).data = some c ∧
      (c.isDigit = true ∨ c = 'k') := by
  rw [buildScaleArg_data]
  obtain ⟨c, hc, hck⟩ := scaleSuffix_chars_last s
  refine ⟨c, ?_, hck⟩
  rw [last1_append _ _ (last1_some_ne_nil ?hne)]
  · rw [last1_append _ _ (last1_some_ne_nil ?hne2)]
    · rw [last1_append _ _ (last1_some_ne_nil hc)]
      exact hc
    case hne2 =>
      rw [last1_append _ _ (last1_some_ne_nil hc)]
      exact hc
  case hne =>
    rw [last1_append _ _ (last1_some_ne_nil ?hne3)]
    · rw [last1_append _ _ (last1_some_ne_nil hc)]
      exact hc
    case hne3 =>
      rw [last1_append _ _ (last1_some_ne_nil hc)]
      exact hc

/-! ## Counting over the select stage and assembling the bucket fragment -/

/-- The literal before the rendered interval in the select stage. -/
def selLit1 : String := "[0:v]select=bitor(gte(t-prev_selected_t\\,"

/-- The literal after the rendered interval in the select stage. -/
def selLit2 : String := ")\\,isnan(prev_selected_t)),"

theorem buildSelectFramesArg_data (fmtG : Int → String) (o : OutputConfig) :
    (buildSelectFramesArg fmtG o).data =
      selLit1.data ++
        ((fmtG (goDurationTruncate o.SnapshotInterval timeMicrosecond)).data ++
          selLit2.data) := by
  unfold buildSelectFramesArg selLit1 selLit2
  simp [List.append_assoc]

theorem countSub_selectArg (pat : List Char) (hpat : IsGraphPat pat)
    (fmtG : Int → String) (hfmt : FmtGOK fmtG) (o : OutputConfig) :
    countSub pat (buildSelectFramesArg fmtG o).data =
      countSub pat selLit1.data := by
  rw [buildSelectFramesArg_data]
  obtain ⟨hne, hal, hlastd⟩ :=
    hfmt (goDurationTruncate o.SnapshotInterval timeMicrosecond)
  obtain ⟨cg, hcg⟩ := last1_ne_nil _ hne
  have hl1 : last1 (selLit1.data) = some ',' := by decide
  rw [countSub_append _ _ _
    (noPre_common pat hpat _ ',' hl1 (Or.inr (by decide)))]
  rw [countSub_append _ _ _
    (noPre_common pat hpat _ cg hcg (Or.inl (hlastd cg hcg)))]
  have hsp : 's' ∈ pat := by rcases hpat with rfl | rfl | rfl <;> decide
  rw [countSub_zero_gAlphabet hsp hal]
  have hz2 : countSub pat (selLit2.data) = 0 := by
    rcases hpat with rfl | rfl | rfl <;> decide
  omega

theorem selectArg_last1 (fmtG : Int → String) (o : OutputConfig) :
    last1 (buildSelectFramesArg fmtG o).data = some ',' := by
  rw [buildSelectFramesArg_data]
  rw [last1_append]
  · rw [last1_append]
    · decide
    · decide
  · intro hnil
    exact absurd (List.append_eq_nil.mp hnil).2 (by decide)

theorem countSub_splitArg_multi (pat : List Char) (hpat : IsGraphPat pat)
    (outputs : List OutputConfig) (hout : 2 ≤ outputs.length)
    (hk : ∀ o ∈ outputs,
      o.«Type» = OutputTypeThumbs ∨ o.«Type» = OutputTypeSprites) :
    countSub pat (buildSplitArg outputs).data =
      countSub pat ",split=".data := by
  cases outputs with
  | nil => simp at hout
  | cons o1 tail =>
    cases tail with
    | nil => simp at hout
    | cons o2 rest =>
      show countSub pat
        ((",split=" ++ itoaNat (o1 :: o2 :: rest).length ++
          buildSplitBranches (o1 :: o2 :: rest) ++
          (if ((o1 :: o2 :: rest).filter fun o =>
              o.«Type» = OutputTypeSprites).isEmpty then ""
           else ";" ++ buildSplitExt
              ((o1 :: o2 :: rest).filter fun o => o.«Type» = OutputTypeSprites)
              0 (o1 :: o2 :: rest).length)).data) = _
      have hd : ((",split=" ++ itoaNat (o1 :: o2 :: rest).length ++
          buildSplitBranches (o1 :: o2 :: rest) ++
          (if ((o1 :: o2 :: rest).filter fun o =>
              o.«Type» = OutputTypeSprites).isEmpty then ""
           else ";" ++ buildSplitExt
              ((o1 :: o2 :: rest).filter fun o => o.«Type» = OutputTypeSprites)
              0 (o1 :: o2 :: rest).length)).data) =
          ",split=".data ++ ((itoaNat (o1 :: o2 :: rest).length).data ++
            ((buildSplitBranches (o1 :: o2 :: rest)).data ++
            (if ((o1 :: o2 :: rest).filter fun o =>
                o.«Type» = OutputTypeSprites).isEmpty then ""
             else ";" ++ buildSplitExt
                ((o1 :: o2 :: rest).filter fun o => o.«Type» = OutputTypeSprites)
                0 (o1 :: o2 :: rest).length).data)) := by
        simp [List.append_assoc]
      rw [hd]
      have h1 : last1 (",split=".data) = some '=' := by decide
      rw [countSub_append _ _ _
        (noPre_common pat hpat _ '=' h1 (Or.inr (by decide)))]
      obtain ⟨cn, hcn, hdn⟩ := itoaNat_last (o1 :: o2 :: rest).length
      rw [countSub_append _ _ _
        (noPre_common pat hpat _ cn hcn (Or.inl hdn))]
      rw [countSub_append _ _ _
        (noPre_common pat hpat _ ']'
          (branches_last1 _ (by simp)) (Or.inr (by decide)))]
      rw [countSub_itoaNat_zero pat hpat, countSub_branches pat hpat _ hk]
      have hx : countSub pat
          ((if ((o1 :: o2 :: rest).filter fun o =>
              o.«Type» = OutputTypeSprites).isEmpty then ""
            else ";" ++ buildSplitExt
              ((o1 :: o2 :: rest).filter fun o => o.«Type» = OutputTypeSprites)
              0 (o1 :: o2 :: rest).length) : String).data = 0 := by
        split_ifs with he
        · rfl
        · rw [String.data_append]
          have hsemi : last1 ((";" : String).data) = some ';' := by decide
          apply countSub_append_zero
          · exact noPre_common pat hpat _ ';' hsemi (Or.inr (by decide))
          · rcases hpat with rfl | rfl | rfl <;> decide
          · exact countSub_ext pat hpat _ 0 _ fun o ho =>
              of_decide_eq_true (List.mem_filter.mp ho).2
      rw [hx]
      omega

theorem bucketFragment_single (fmtG : Int → String) (hs : String)
    (bucket : List OutputConfig) :
    bucketFragment fmtG [(hs, bucket)] =
      buildSelectFramesArg fmtG (bucket.headD default) ++
      buildScaleArg (bucket.headD default).Scale ++ buildSplitArg bucket := by
  unfold bucketFragment
  rw [if_pos (by simp)]
  rfl

theorem countSub_bucketFragment (pat : List Char) (hpat : IsGraphPat pat)
    (fmtG : Int → String) (hfmt : FmtGOK fmtG) (hs : String)
    (bucket : List OutputConfig) (hlen : 2 ≤ bucket.length)
    (hk : ∀ o ∈ bucket,
      o.«Type» = OutputTypeThumbs ∨ o.«Type» = OutputTypeSprites) :
    countSub pat (bucketFragment fmtG [(hs, bucket)]).data =
      countSub pat selLit1.data + countSub pat "scale=".data +
        countSub pat ",split=".data := by
  rw [bucketFragment_single]
  have hd : ((buildSelectFramesArg fmtG (bucket.headD default) ++
      buildScaleArg (bucket.headD default).Scale ++
      buildSplitArg bucket).data) =
      (buildSelectFramesArg fmtG (bucket.headD default)).data ++
        ((buildScaleArg (bucket.headD default).Scale).data ++
          (buildSplitArg bucket).data) := by
    simp [List.append_assoc]
  rw [hd]
  rw [countSub_append _ _ _
    (noPre_common pat hpat _ ','
      (selectArg_last1 fmtG (bucket.headD default)) (Or.inr (by decide)))]
  obtain ⟨cs, hcs, hck⟩ := scaleArg_last1 (bucket.headD default).Scale
  rw [countSub_append _ _ _
    (noPre_common pat hpat _ cs hcs
      (hck.imp id fun hkk => by rw [hkk]; decide))]
  rw [countSub_selectArg pat hpat fmtG hfmt, countSub_scaleArg pat hpat,
    countSub_splitArg_multi pat hpat _ hlen hk]
  omega

/-! ## Validity consequences and bucket membership -/

theorem validateOutputs_none_valid (outputs : List OutputConfig)
    (hval : validateOutputs outputs = none) :
    ∀ o ∈ outputs, SpecValidOutput o := by
  unfold validateOutputs at hval
  split_ifs at hval with he
  exact (validateLoop_none_iff 0 outputs).mp hval

theorem SpecValidOutput.kind_ok {o : OutputConfig} (hv : SpecValidOutput o) :
    o.«Type» = OutputTypeThumbs ∨ o.«Type» = OutputTypeSprites :=
  hv.2.2.2.2.2.2.1

theorem two_le_length_filter {α : Type} (p : α → Bool) :
    ∀ (l : List α) (i j : Nat) (hij : i < j) (hj : j < l.length),
    p (l.get ⟨i, by omega⟩) = true → p (l.get ⟨j, hj⟩) = true →
    2 ≤ (l.filter p).length := by
  intro l
  induction l with
  | nil => intro i j hij hj; exact absurd hj (by simp)
  | cons a t ih =>
    intro i j hij hj hpi hpj
    cases i with
    | zero =>
      cases j with
      | zero => omega
      | succ jp =>
        have hjp : jp < t.length := by simpa using hj
        have hpj' : p (t.get ⟨jp, hjp⟩) = true := hpj
        have hmem : t.get ⟨jp, hjp⟩ ∈ t.filter p :=
          List.mem_filter.mpr ⟨List.get_mem t jp hjp, hpj'⟩
        have h1 : 1 ≤ (t.filter p).length :=
          List.length_pos.mpr (List.ne_nil_of_mem hmem)
        have hpa : p a = true := hpi
        rw [List.filter_cons, if_pos hpa]
        simp only [List.length_cons]
        omega
    | succ ip =>
      cases j with
      | zero => omega
      | succ jp =>
        have hjp : jp < t.length := by simpa using hj
        have hrec := ih ip jp (by omega) hjp hpi hpj
        rw [List.filter_cons]
        split_ifs with hpa
        · simp only [List.length_cons]
          omega
        · exact hrec

theorem forall2_exists_of_mem {α β : Type} {R : α → β → Prop}
    {l1 : List α} {l2 : List β} (hf : List.Forall₂ R l1 l2) {a : α}
    (ha : a ∈ l1) : ∃ b ∈ l2, R a b := by
  induction hf with
  | nil => cases ha
  | cons hr hrest ih =>
    rcases List.mem_cons.mp ha with rfl | hmem
    · exact ⟨_, List.mem_cons_self _ _, hr⟩
    · obtain ⟨b, hb, hrb⟩ := ih hmem
      exact ⟨b, List.mem_cons_of_mem _ hb, hrb⟩

theorem fragment_infix (fmtG : Int → String) :
    ∀ (g : Grouped) (e : Int × InnerGroup), e ∈ g →
    (bucketFragment fmtG e.2).data <:+: (buildBody fmtG g).data := by
  intro g
  induction g with
  | nil => intro e he; cases he
  | cons g1 rest ih =>
    intro e he
    rcases List.mem_cons.mp he with rfl | hmem
    · cases rest with
      | nil => exact List.infix_rfl
      | cons r2 rs =>
        show (bucketFragment fmtG e.2).data <:+:
          (bucketFragment fmtG e.2 ++ ";" ++ buildBody fmtG (r2 :: rs)).data
        simp only [String.data_append]
        exact ((List.prefix_append _ _).trans
          (List.prefix_append _ _)).isInfix
    · cases rest with
      | nil => cases hmem
      | cons r2 rs =>
        have hrec := ih e hmem
        show (bucketFragment fmtG e.2).data <:+:
          (bucketFragment fmtG g1.2 ++ ";" ++ buildBody fmtG (r2 :: rs)).data
        simp only [String.data_append]
        refine hrec.trans (List.IsSuffix.isInfix ?_)
        rw [List.append_assoc]
        exact (List.suffix_append _ _).trans (List.suffix_append _ _)

/-- C1. With the hashed byte buffer provably empty, any two outputs of one
valid list that share a sampling interval — in particular two with identical
interval and identical scale configuration — land in the same single hash
bucket of their interval group; that bucket is compiled on the fast path
sharing exactly one selection stage, one scale stage and one split stage
(one occurrence apiece of `select=`, `scale=` and `split=` in the bucket
fragment), and the fragment occurs inside every graph string
`BuildComplexFilters` may emit for the list. -/
theorem c1_shared_bucket_single_stage
    (h : List UInt8 → String) (fmtG : Int → String) (hfmt : FmtGOK fmtG)
    (outputs : List OutputConfig) (hval : validateOutputs outputs = none)
    (i j : Nat) (hi : i < outputs.length) (hj : j < outputs.length)
    (hij : i ≠ j)
    (hint : (outputs.get ⟨i, hi⟩).SnapshotInterval =
      (outputs.get ⟨j, hj⟩).SnapshotInterval)
    (hsc : (outputs.get ⟨i, hi⟩).Scale = (outputs.get ⟨j, hj⟩).Scale) :
    ∃ bucket : List OutputConfig,
      (((outputs.get ⟨i, hi⟩).SnapshotInterval, [(h [], bucket)]) ∈
        groupOutputs h outputs) ∧
      outputs.get ⟨i, hi⟩ ∈ bucket ∧
      outputs.get ⟨j, hj⟩ ∈ bucket ∧
      2 ≤ bucket.length ∧
      bucketFragment fmtG [(h [], bucket)] =
        buildSelectFramesArg fmtG (bucket.headD default) ++
        buildScaleArg (bucket.headD default).Scale ++
        buildSplitArg bucket ∧
      countSub scalePat (bucketFragment fmtG [(h [], bucket)]).data = 1 ∧
      countSub selectPat (bucketFragment fmtG [(h [], bucket)]).data = 1 ∧
      countSub splitPat (bucketFragment fmtG [(h [], bucket)]).data = 1 ∧
      ∀ s, BuildComplexFilters h fmtG outputs (Except.ok s) →
        (bucketFragment fmtG [(h [], bucket)]).data <:+: s.data := by
  have hvalid := validateOutputs_none_valid outputs hval
  set oi := outputs.get ⟨i, hi⟩ with hoi
  set oj := outputs.get ⟨j, hj⟩ with hoj
  refine ⟨outputs.filter fun o => o.SnapshotInterval = oi.SnapshotInterval,
    ?_, ?_, ?_, ?_, ?_, ?_, ?_, ?_, ?_⟩
  · rw [groupOutputs_eq_spec]
    unfold groupSpec
    exact List.mem_map.mpr ⟨oi.SnapshotInterval,
      (mem_intervalKeys outputs _).mpr ⟨oi, List.get_mem outputs i hi, rfl⟩, rfl⟩
  · exact List.mem_filter.mpr ⟨List.get_mem outputs i hi, by simp⟩
  · refine List.mem_filter.mpr ⟨List.get_mem outputs j hj, ?_⟩
    rw [hint]
    simp
  · rcases Nat.lt_or_ge i j with hlt | hge
    · exact two_le_length_filter _ outputs i j hlt hj (by simp <;> rfl)
        (by rw [hint]; simp <;> rfl)
    · have hlt : j < i := by omega
      exact two_le_length_filter _ outputs j i hlt hi (by rw [hint]; simp <;> rfl)
        (by simp <;> rfl)
  · exact bucketFragment_single fmtG (h []) _
  · rw [countSub_bucketFragment scalePat (Or.inl rfl) fmtG hfmt (h []) _ ?hl2 ?hks]
    · decide
    case hl2 =>
      rcases Nat.lt_or_ge i j with hlt | hge
      · exact two_le_length_filter _ outputs i j hlt hj (by simp <;> rfl)
          (by rw [hint]; simp <;> rfl)
      · have hlt : j < i := by omega
        exact two_le_length_filter _ outputs j i hlt hi (by rw [hint]; simp <;> rfl)
          (by simp <;> rfl)
    case hks =>
      intro o ho
      exact (hvalid o (List.mem_of_mem_filter ho)).kind_ok
  · rw [countSub_bucketFragment selectPat (Or.inr (Or.inl rfl)) fmtG hfmt (h []) _ ?hl2b ?hksb]
    · decide
    case hl2b =>
      rcases Nat.lt_or_ge i j with hlt | hge
      · exact two_le_length_filter _ outputs i j hlt hj (by simp <;> rfl)
          (by rw [hint]; simp <;> rfl)
      · have hlt : j < i := by omega
        exact two_le_length_filter _ outputs j i hlt hi (by rw [hint]; simp <;> rfl)
          (by simp <;> rfl)
    case hksb =>
      intro o ho
      exact (hvalid o (List.mem_of_mem_filter ho)).kind_ok
  · rw [countSub_bucketFragment splitPat (Or.inr (Or.inr rfl)) fmtG hfmt (h []) _ ?hl2c ?hksc]
    · decide
    case hl2c =>
      rcases Nat.lt_or_ge i j with hlt | hge
      · exact two_le_length_filter _ outputs i j hlt hj (by simp <;> rfl)
          (by rw [hint]; simp <;> rfl)
      · have hlt : j < i := by omega
        exact two_le_length_filter _ outputs j i hlt hi (by rw [hint]; simp <;> rfl)
          (by simp <;> rfl)
    case hksc =>
      intro o ho
      exact (hvalid o (List.mem_of_mem_filter ho)).kind_ok
  · intro s hb
    unfold BuildComplexFilters at hb
    rw [hval] at hb
    obtain ⟨g', ⟨g1, hperm, hfa⟩, hok⟩ := hb
    have hmem0 : ((oi.SnapshotInterval,
        [(h [], outputs.filter fun o =>
          o.SnapshotInterval = oi.SnapshotInterval)]) : Int × InnerGroup) ∈
        groupOutputs h outputs := by
      rw [groupOutputs_eq_spec]
      unfold groupSpec
      exact List.mem_map.mpr ⟨oi.SnapshotInterval,
        (mem_intervalKeys outputs _).mpr ⟨oi, List.get_mem outputs i hi, rfl⟩, rfl⟩
    have hmem1 := hperm.mem_iff.mp hmem0
    obtain ⟨b, hbmem, hfst, hsnd⟩ := forall2_exists_of_mem hfa hmem1
    have hb2 : b.2 = [(h [], outputs.filter fun o =>
        o.SnapshotInterval = oi.SnapshotInterval)] :=
      (List.singleton_perm.mp hsnd).symm
    have hs : s = buildBody fmtG g' := (Except.ok.inj hok)
    rw [hs, ← hb2]
    exact fragment_infix fmtG g' b hbmem

/-! ## Concrete instantiations shared by the witnesses -/

/-- A stand-in external digest function for concrete instantiations. -/
def wH : List UInt8 → String := fun _ => ""

/-- The `%g` rendering of 6.5 seconds, as the external renderer produces it
for the 6500 ms interval. -/
def wFmtG : Int → String := fun _ => "6.5"

theorem wFmtG_ok : FmtGOK wFmtG := by
  intro d
  refine ⟨?_, ?_, ?_⟩
  · show ("6.5" : String).data ≠ []
    decide
  · show ∀ c ∈ ("6.5" : String).data, c ∈ gAlphabet
    decide
  · intro c hc
    have h5 : last1 (("6.5" : String).data) = some '5' := by decide
    rw [show (wFmtG d) = "6.5" from rfl, h5] at hc
    rw [← Option.some_inj.mp hc]
    decide

def c1OutA : OutputConfig :=
  { idx := 0, Scale := { Width := 320, Height := 180, Behavior := 1 },
    SnapshotInterval := 6500000000, «Type» := 0,
    Sprites := { Dimensions := { Columns := 1, Rows := 1 } }, Quality := 0 }

def c1OutB : OutputConfig :=
  { c1OutA with idx := 1 }

/-- Witness for C1: two identical thumbnail outputs (interval 6500 ms, scale
320×180 fill) at positions 0 and 1 of a concrete valid list. -/
theorem c1_witness :
    ∃ bucket : List OutputConfig,
      ((([c1OutA, c1OutB].get ⟨0, by decide⟩).SnapshotInterval,
        [(wH [], bucket)]) ∈ groupOutputs wH [c1OutA, c1OutB]) ∧
      [c1OutA, c1OutB].get ⟨0, by decide⟩ ∈ bucket ∧
      [c1OutA, c1OutB].get ⟨1, by decide⟩ ∈ bucket ∧
      2 ≤ bucket.length ∧
      bucketFragment wFmtG [(wH [], bucket)] =
        buildSelectFramesArg wFmtG (bucket.headD default) ++
        buildScaleArg (bucket.headD default).Scale ++
        buildSplitArg bucket ∧
      countSub scalePat (bucketFragment wFmtG [(wH [], bucket)]).data = 1 ∧
      countSub selectPat (bucketFragment wFmtG [(wH [], bucket)]).data = 1 ∧
      countSub splitPat (bucketFragment wFmtG [(wH [], bucket)]).data = 1 ∧
      ∀ s, BuildComplexFilters wH wFmtG [c1OutA, c1OutB] (Except.ok s) →
        (bucketFragment wFmtG [(wH [], bucket)]).data <:+: s.data :=
  c1_shared_bucket_single_stage wH wFmtG wFmtG_ok [c1OutA, c1OutB]
    (by decide) 0 1 (by decide) (by decide) (by decide) rfl rfl

/-! ## Claim C7: scale-stage semantics -/

/-- The claim's plain scale directive with the configured width and height. -/
def specScaleDirective (s : ScaleConfig) : String :=
  "scale=" ++ itoa s.Width ++ ":" ++ itoa s.Height

/-- The claim's shrink-to-fit aspect-preserving directive followed by a pad
to the exact target size with black fill. -/
def specShrinkAndPad (s : ScaleConfig) : String :=
  ":force_original_aspect_ratio=decrease,pad=" ++ itoa s.Width ++ ":" ++
    itoa s.Height ++ ":-1:-1:color=black"

/-- The claim's grow-to-fill aspect-preserving directive followed by a crop
to the exact target size. -/
def specGrowAndCrop (s : ScaleConfig) : String :=
  ":force_original_aspect_ratio=increase,crop=" ++ itoa s.Width ++ ":" ++
    itoa s.Height

/-- C7. The scale stage always starts with the scale directive carrying the
configured width and height; `FillKeepAspect` appends the shrink-to-fit
directive plus black-padded exact-size pad, `CropToFit` appends the
grow-to-fill directive plus exact-size crop, and `None` appends nothing. -/
theorem c7_scale_stage_semantics (s : ScaleConfig) :
    (∃ suffix, buildScaleArg s = specScaleDirective s ++ suffix) ∧
    (s.Behavior = ScaleBehaviorNone →
      buildScaleArg s = specScaleDirective s) ∧
    (s.Behavior = ScaleBehaviorFillToKeepAspectRatio →
      buildScaleArg s = specScaleDirective s ++ specShrinkAndPad s) ∧
    (s.Behavior = ScaleBehaviorCropToFit →
      buildScaleArg s = specScaleDirective s ++ specGrowAndCrop s) := by
  unfold buildScaleArg specScaleDirective specShrinkAndPad specGrowAndCrop
  refine ⟨⟨_, rfl⟩, ?_, ?_, ?_⟩
  · intro h0
    rw [if_neg (by rw [h0]; decide), if_neg (by rw [h0]; decide)]
    simp
  · intro h1
    rw [if_pos h1]
  · intro h2
    rw [if_neg (by rw [h2]; decide), if_pos h2]

/-! ## Claim C6: the concrete two-thumbnail example -/

/-- The graph the compiler emits for two identical 6500 ms 320×180
fill-to-keep-aspect thumbnail outputs. -/
def c6Graph : String :=
  "[0:v]select=bitor(gte(t-prev_selected_t\\,6.5)\\,isnan(prev_selected_t)),scale=320:180:force_original_aspect_ratio=decrease,pad=320:180:-1:-1:color=black,split=2[thumbs-0-out][thumbs-1-out]"

set_option maxRecDepth 16384 in
/-- C6. For the two-thumbnail specification list (both 6500 ms, 320×180,
FillKeepAspect), the compiled graph is `c6Graph`: it has exactly one
`select=` stage, exactly one `scale=` stage immediately followed by the
black pad directive, and one `split=2` fan-out ending in the two distinct
terminal labels `thumbs-0-out` and `thumbs-1-out`. -/
theorem c6_two_thumbnails_graph (h : List UInt8 → String)
    (fmtG : Int → String) (hfmt : fmtG 6500000000 = "6.5") :
    BuildComplexFiltersDet h fmtG [c1OutA, c1OutB] = Except.ok c6Graph ∧
    BuildComplexFilters h fmtG [c1OutA, c1OutB] (Except.ok c6Graph) ∧
    countSub selectPat c6Graph.data = 1 ∧
    countSub scalePat c6Graph.data = 1 ∧
    ("scale=320:180:force_original_aspect_ratio=decrease,pad=".data <:+:
      c6Graph.data) ∧
    countSub "split=".data c6Graph.data = 1 ∧
    ("split=2[thumbs-0-out][thumbs-1-out]".data <:+ c6Graph.data) ∧
    "thumbs-0-out" ≠ "thumbs-1-out" := by
  have hgrp : groupOutputs h [c1OutA, c1OutB] =
      [(6500000000, [(h [], [c1OutA, c1OutB])])] := by
    rw [groupOutputs_eq_spec]
    rfl
  have hdet : BuildComplexFiltersDet h fmtG [c1OutA, c1OutB] =
      Except.ok c6Graph := by
    unfold BuildComplexFiltersDet
    rw [show validateOutputs [c1OutA, c1OutB] = none from by decide, hgrp]
    show Except.ok (bucketFragment fmtG [(h [], [c1OutA, c1OutB])]) = _
    rw [bucketFragment_single]
    show Except.ok (buildSelectFramesArg fmtG c1OutA ++
      buildScaleArg c1OutA.Scale ++ buildSplitArg [c1OutA, c1OutB]) = _
    unfold buildSelectFramesArg
    rw [show goDurationTruncate c1OutA.SnapshotInterval timeMicrosecond =
      6500000000 from by decide, hfmt]
    rfl
  refine ⟨hdet, hdet ▸ BuildComplexFiltersDet_builds h fmtG [c1OutA, c1OutB],
    by decide, by decide, by decide, by decide, by decide, by decide⟩

set_option maxRecDepth 16384 in
/-- Witness for C6 at the stand-in renderer. -/
theorem c6_witness :
    BuildComplexFiltersDet wH wFmtG [c1OutA, c1OutB] = Except.ok c6Graph ∧
    BuildComplexFilters wH wFmtG [c1OutA, c1OutB] (Except.ok c6Graph) ∧
    countSub selectPat c6Graph.data = 1 ∧
    countSub scalePat c6Graph.data = 1 ∧
    ("scale=320:180:force_original_aspect_ratio=decrease,pad=".data <:+:
      c6Graph.data) ∧
    countSub "split=".data c6Graph.data = 1 ∧
    ("split=2[thumbs-0-out][thumbs-1-out]".data <:+ c6Graph.data) ∧
    "thumbs-0-out" ≠ "thumbs-1-out" :=
  c6_two_thumbnails_graph wH wFmtG rfl

/-! ## Claim C2: mixed sprite/thumbnail bucket and the trailing delimiter -/

def c2Sprite : OutputConfig :=
  { idx := 0, Scale := { Width := 320, Height := 180, Behavior := 0 },
    SnapshotInterval := 1000000000, «Type» := 1,
    Sprites := { Dimensions := { Columns := 2, Rows := 2 } }, Quality := 0 }

def c2Thumb : OutputConfig :=
  { c2Sprite with idx := 1, «Type» := 0 }

/-- The graph emitted for one sprite plus one thumbnail sharing interval and
scale; note the trailing `;` after the sprite tiling statement. -/
def c2Graph : String :=
  "[0:v]select=bitor(gte(t-prev_selected_t\\,1)\\,isnan(prev_selected_t)),scale=320:180,split=2[sprites-0][thumbs-1-out];[sprites-0]tile=2x2[sprites-0-out];"

set_option maxRecDepth 16384 in
/-- C2 (failing input). In a bucket mixing one Sprite and one Thumbnail
output, the extra-statement loop of `buildSplitArg` compares its counter
against the bucket size (2) instead of the number of sprite statements (1),
so the emitted graph ends in a dangling `;`: the statement delimiter
contract of the claim is violated. -/
theorem c2_mixed_bucket_trailing_semicolon (h : List UInt8 → String)
    (fmtG : Int → String) (hfmt : fmtG 1000000000 = "1") :
    BuildComplexFiltersDet h fmtG [c2Sprite, c2Thumb] = Except.ok c2Graph ∧
    BuildComplexFilters h fmtG [c2Sprite, c2Thumb] (Except.ok c2Graph) ∧
    last1 c2Graph.data = some ';' ∧
    countSub ";;".data c2Graph.data = 0 := by
  have hgrp : groupOutputs h [c2Sprite, c2Thumb] =
      [(1000000000, [(h [], [c2Sprite, c2Thumb])])] := by
    rw [groupOutputs_eq_spec]
    rfl
  have hdet : BuildComplexFiltersDet h fmtG [c2Sprite, c2Thumb] =
      Except.ok c2Graph := by
    unfold BuildComplexFiltersDet
    rw [show validateOutputs [c2Sprite, c2Thumb] = none from by decide, hgrp]
    show Except.ok (bucketFragment fmtG [(h [], [c2Sprite, c2Thumb])]) = _
    rw [bucketFragment_single]
    show Except.ok (buildSelectFramesArg fmtG c2Sprite ++
      buildScaleArg c2Sprite.Scale ++ buildSplitArg [c2Sprite, c2Thumb]) = _
    unfold buildSelectFramesArg
    rw [show goDurationTruncate c2Sprite.SnapshotInterval timeMicrosecond =
      1000000000 from by decide, hfmt]
    rfl
  exact ⟨hdet, hdet ▸ BuildComplexFiltersDet_builds h fmtG [c2Sprite, c2Thumb],
    by decide, by decide⟩

/-- Witness for C2's failing-input theorem. -/
def wFmtG1 : Int → String := fun _ => "1"

set_option maxRecDepth 16384 in
theorem c2_witness :
    BuildComplexFiltersDet wH wFmtG1 [c2Sprite, c2Thumb] = Except.ok c2Graph ∧
    BuildComplexFilters wH wFmtG1 [c2Sprite, c2Thumb] (Except.ok c2Graph) ∧
    last1 c2Graph.data = some ';' ∧
    countSub ";;".data c2Graph.data = 0 :=
  c2_mixed_bucket_trailing_semicolon wH wFmtG1 rfl

/-- Witness for C7 at the three concrete 320×180 scale configurations. -/
theorem c7_witness :
    buildScaleArg { Width := 320, Height := 180, Behavior := 0 } =
      specScaleDirective { Width := 320, Height := 180, Behavior := 0 } ∧
    buildScaleArg { Width := 320, Height := 180, Behavior := 1 } =
      specScaleDirective { Width := 320, Height := 180, Behavior := 1 } ++
        specShrinkAndPad { Width := 320, Height := 180, Behavior := 1 } ∧
    buildScaleArg { Width := 320, Height := 180, Behavior := 2 } =
      specScaleDirective { Width := 320, Height := 180, Behavior := 2 } ++
        specGrowAndCrop { Width := 320, Height := 180, Behavior := 2 } :=
  ⟨(c7_scale_stage_semantics _).2.1 rfl,
   (c7_scale_stage_semantics _).2.2.1 rfl,
   (c7_scale_stage_semantics _).2.2.2 rfl⟩

/-! ## Claim C3: determinism of the emitted graph

The outer and inner groupings are Go maps, so the bucket fragments can come
out in any order; the graph string is only deterministic up to the order of
the `;`-separated interval fragments (and exactly deterministic when there
is a single interval bucket). -/

def c3OutA : OutputConfig :=
  { idx := 0, Scale := { Width := 320, Height := 180, Behavior := 0 },
    SnapshotInterval := 1000000000, «Type» := 0,
    Sprites := { Dimensions := { Columns := 1, Rows := 1 } }, Quality := 0 }

def c3OutB : OutputConfig :=
  { c3OutA with idx := 1, SnapshotInterval := 2000000000 }

/-- Renderer values of `%g` at the two intervals used below (1 s and 2 s). -/
def c3Fmt : Int → String := fun d => if d = 1000000000 then "1" else "2"

def c3Graph1 : String :=
  "[0:v]select=bitor(gte(t-prev_selected_t\\,1)\\,isnan(prev_selected_t)),scale=320:180[thumbs-0-out];[0:v]select=bitor(gte(t-prev_selected_t\\,2)\\,isnan(prev_selected_t)),scale=320:180[thumbs-1-out]"

def c3Graph2 : String :=
  "[0:v]select=bitor(gte(t-prev_selected_t\\,2)\\,isnan(prev_selected_t)),scale=320:180[thumbs-1-out];[0:v]select=bitor(gte(t-prev_selected_t\\,1)\\,isnan(prev_selected_t)),scale=320:180[thumbs-0-out]"

set_option maxRecDepth 16384 in
/-- C3 counterexample: with two distinct snapshot intervals, two admissible
map iteration orders of `BuildComplexFilters` yield two different graph
strings for the same input list, so the emitted graph is not a deterministic
function of the input. -/
theorem c3_counterexample :
    BuildComplexFilters wH c3Fmt [c3OutA, c3OutB] (Except.ok c3Graph1) ∧
    BuildComplexFilters wH c3Fmt [c3OutA, c3OutB] (Except.ok c3Graph2) ∧
    c3Graph1 ≠ c3Graph2 := by
  have hv : validateOutputs [c3OutA, c3OutB] = none := by decide
  refine ⟨?_, ?_, by decide⟩
  · have hrel := BuildComplexFiltersDet_builds wH c3Fmt [c3OutA, c3OutB]
    have hd : BuildComplexFiltersDet wH c3Fmt [c3OutA, c3OutB] =
        Except.ok c3Graph1 := by
      unfold BuildComplexFiltersDet
      rw [hv]
      rfl
    rwa [hd] at hrel
  · unfold BuildComplexFilters
    rw [hv]
    refine ⟨[(2000000000, [("", [c3OutB])]), (1000000000, [("", [c3OutA])])],
      ⟨[(2000000000, [("", [c3OutB])]), (1000000000, [("", [c3OutA])])],
        ?_, ?_⟩, ?_⟩
    · have hgo : groupOutputs wH [c3OutA, c3OutB] =
        [(1000000000, [("", [c3OutA])]), (2000000000, [("", [c3OutB])])] := by
        rfl
      rw [hgo]
      exact List.Perm.swap _ _ []
    · exact List.forall₂_same.mpr fun x _ => ⟨rfl, List.Perm.refl _⟩
    · rfl

theorem length_le_one_of_nodup_all_eq {l : List Int} (hnd : l.Nodup)
    (hall : ∀ x ∈ l, ∀ y ∈ l, x = y) : l.length ≤ 1 := by
  cases l with
  | nil => simp
  | cons a t =>
    cases t with
    | nil => simp
    | cons b t2 =>
      exfalso
      have hab : a = b := hall a (by simp) b (by simp)
      have hni : a ∉ b :: t2 := (List.nodup_cons.mp hnd).1
      exact hni (by rw [hab]; exact List.mem_cons_self b t2)

theorem perm_eq_of_short {α : Type} {l l' : List α} (hl : l.length ≤ 1)
    (hp : l.Perm l') : l = l' := by
  cases l with
  | nil => exact (List.nil_perm.mp hp).symm
  | cons a t =>
    cases t with
    | nil => exact List.singleton_perm.mp hp
    | cons b t2 => simp at hl

theorem groupSpec_inner_singleton (h : List UInt8 → String)
    (outputs : List OutputConfig) :
    ∀ e ∈ groupSpec h outputs, ∃ x, e.2 = [x] := by
  intro e he
  obtain ⟨d, _, rfl⟩ := List.mem_map.mp he
  exact ⟨_, rfl⟩

theorem forall2_eq_of_singletons {g1 g' : Grouped}
    (hsing : ∀ e ∈ g1, ∃ x, e.2 = [x])
    (hf : List.Forall₂ (fun a b => a.1 = b.1 ∧ a.2.Perm b.2) g1 g') :
    g1 = g' := by
  induction hf with
  | nil => rfl
  | cons hab _ ih =>
    rename_i a b l1 l2 _
    have ha : ∃ x, a.2 = [x] := hsing a (List.mem_cons_self a l1)
    obtain ⟨x, hx⟩ := ha
    have hb : b.2 = [x] := by
      have := hab.2
      rw [hx] at this
      exact (List.singleton_perm.mp this).symm
    have hae : a = b := by
      obtain ⟨a1, a2⟩ := a
      obtain ⟨b1, b2⟩ := b
      simp only at hx hb
      cases hab.1
      rw [hx, hb]
    rw [hae, ih fun e he => hsing e (List.mem_cons_of_mem a he)]

theorem rearranges_perm {g g' : Grouped}
    (hsing : ∀ e ∈ g, ∃ x, e.2 = [x]) (hr : GroupedRearranges g g') :
    g.Perm g' := by
  obtain ⟨g1, hperm, hf⟩ := hr
  have hsing1 : ∀ e ∈ g1, ∃ x, e.2 = [x] := fun e he =>
    hsing e (hperm.symm.subset he)
  rw [← forall2_eq_of_singletons hsing1 hf]
  exact hperm

/-- C3 (amended). Any two graphs that `BuildComplexFilters` may return for
the same input are `;`-joined bodies of two groupings that are permutations
of one another (the statement multiset is deterministic even though the
string is not), and when all outputs share one snapshot interval the graph
string itself is deterministic. -/
theorem c3_graph_determinism_up_to_bucket_order
    (h : List UInt8 → String) (fmtG : Int → String)
    (outputs : List OutputConfig) (s1 s2 : String)
    (h1 : BuildComplexFilters h fmtG outputs (Except.ok s1))
    (h2 : BuildComplexFilters h fmtG outputs (Except.ok s2)) :
    (∃ g1 g2 : Grouped, s1 = buildBody fmtG g1 ∧ s2 = buildBody fmtG g2 ∧
      g1.Perm g2) ∧
    ((∀ o1 ∈ outputs, ∀ o2 ∈ outputs,
        o1.SnapshotInterval = o2.SnapshotInterval) → s1 = s2) := by
  unfold BuildComplexFilters at h1 h2
  cases hv : validateOutputs outputs with
  | some e =>
    rw [hv] at h1
    exact absurd h1 (by simp)
  | none =>
    rw [hv] at h1 h2
    obtain ⟨g1', hr1, hs1⟩ := h1
    obtain ⟨g2', hr2, hs2⟩ := h2
    have e1 : s1 = buildBody fmtG g1' := Except.ok.inj hs1
    have e2 : s2 = buildBody fmtG g2' := Except.ok.inj hs2
    have hg : groupOutputs h outputs = groupSpec h outputs :=
      groupOutputs_eq_spec h outputs
    have hsing : ∀ e ∈ groupOutputs h outputs, ∃ x, e.2 = [x] := by
      rw [hg]
      exact groupSpec_inner_singleton h outputs
    have hp1 : (groupOutputs h outputs).Perm g1' := rearranges_perm hsing hr1
    have hp2 : (groupOutputs h outputs).Perm g2' := rearranges_perm hsing hr2
    refine ⟨⟨g1', g2', e1, e2, hp1.symm.trans hp2⟩, ?_⟩
    intro hall
    have hkeys : (intervalKeys outputs).length ≤ 1 := by
      apply length_le_one_of_nodup_all_eq (intervalKeys_nodup outputs)
      intro x hx y hy
      obtain ⟨o1, ho1, hx1⟩ := (mem_intervalKeys outputs x).mp hx
      obtain ⟨o2, ho2, hy1⟩ := (mem_intervalKeys outputs y).mp hy
      rw [← hx1, ← hy1]
      exact hall o1 ho1 o2 ho2
    have hlen : (groupOutputs h outputs).length ≤ 1 := by
      rw [hg]
      unfold groupSpec
      rw [List.length_map]
      exact hkeys
    have eq1 : groupOutputs h outputs = g1' := perm_eq_of_short hlen hp1
    have eq2 : groupOutputs h outputs = g2' := perm_eq_of_short hlen hp2
    rw [e1, e2, ← eq1, ← eq2]

/-- Witness for the amended C3 theorem on a single-interval input. -/
def c3SingleGraph : String :=
  "[0:v]select=bitor(gte(t-prev_selected_t\\,1)\\,isnan(prev_selected_t)),scale=320:180[thumbs-0-out]"

set_option maxRecDepth 16384 in
theorem c3_witness :
    (∃ g1 g2 : Grouped, c3SingleGraph = buildBody c3Fmt g1 ∧
      c3SingleGraph = buildBody c3Fmt g2 ∧ g1.Perm g2) ∧
    ((∀ o1 ∈ [c3OutA], ∀ o2 ∈ [c3OutA],
        o1.SnapshotInterval = o2.SnapshotInterval) →
      c3SingleGraph = c3SingleGraph) := by
  have hd : BuildComplexFiltersDet wH c3Fmt [c3OutA] =
      Except.ok c3SingleGraph := by
    unfold BuildComplexFiltersDet
    rw [show validateOutputs [c3OutA] = none from by decide]
    rfl
  have hb : BuildComplexFilters wH c3Fmt [c3OutA] (Except.ok c3SingleGraph) := by
    have hrel := BuildComplexFiltersDet_builds wH c3Fmt [c3OutA]
    rwa [hd] at hrel
  exact c3_graph_determinism_up_to_bucket_order wH c3Fmt [c3OutA]
    c3SingleGraph c3SingleGraph hb hb

/-! ## Claim C4: the error contract of `Generate` (src ffmpeg.go)

`Generate` drives one external ffmpeg process.  The process session is the
external collaborator; it is abstracted as a `ProcSpec`: whether the two
pipes can be created, whether the process starts, its exit status, and the
lines the process writes to stderr.  `generateRun` is the shallow embedding
of the body of `Generate` after command assembly (lines 243-303 of the
source): the debug launch log, the two pipe creations, `cmd.Start()`, the
stderr-collecting goroutine, `cmd.Wait()`, and the three log sites, in
source order.  Go's `(*exec.ExitError).Error()` for a non-zero exit status
renders as `exit status N`, which is the returned error's whole text. -/

structure ProcSpec where
  stdoutPipeErr : Option String
  stderrPipeErr : Option String
  startErr : Option String
  exitCode : Nat
  stderrLines : List String
deriving DecidableEq

structure LogEvent where
  level : String
  msg : String
  attrs : List (String × String)
deriving DecidableEq

/-- The stderr goroutine: each scanned line followed by a newline. -/
def capturedStderr (lines : List String) : String :=
  String.join (lines.map fun l => l ++ "\n")

/-- Go `(*exec.ExitError).Error()` for a non-zero exit status. -/
def waitErrMsg (code : Nat) : String :=
  "exit status " ++ itoaNat code

/-- The body of `Generate`: returned error (`none` = Go `nil`) and emitted
log events, in order. -/
def generateRun (p : ProcSpec) : Option String × List LogEvent :=
  let launch : LogEvent := ⟨"DEBUG", "Launching ffmpeg", []⟩
  match p.stdoutPipeErr with
  | some e => (some e, [launch])
  | none =>
    match p.stderrPipeErr with
    | some e => (some e, [launch])
    | none =>
      match p.startErr with
      | some e =>
        (some e, [launch, ⟨"ERROR", "ffmpeg start failed", [("err", e)]⟩])
      | none =>
        if p.exitCode ≠ 0 then
          (some (waitErrMsg p.exitCode),
           [launch,
            ⟨"ERROR", "ffmpeg run failed",
             [("stderr", capturedStderr p.stderrLines),
              ("err", waitErrMsg p.exitCode)]⟩])
        else
          (none, [launch, ⟨"INFO", "ffmpeg command finished", []⟩])

/-- A process that starts and exits with status 1 after writing one stderr
line. -/
def c4Proc : ProcSpec :=
  { stdoutPipeErr := none, stderrPipeErr := none, startErr := none,
    exitCode := 1,
    stderrLines := ["Error opening input: No such file or directory"] }

/-- C4 counterexample: for a started process that exits with status 1, the
returned error text is exactly `exit status 1`; the captured stderr text
exists but is not part of the returned error (it is only attached to the
`ffmpeg run failed` log entry), refuting the claim that the returned
failure carries the process's captured standard-error text. -/
theorem c4_counterexample :
    (generateRun c4Proc).1 = some "exit status 1" ∧
    capturedStderr c4Proc.stderrLines =
      "Error opening input: No such file or directory\n" ∧
    ¬ (("No such file" : String).data <:+: ("exit status 1" : String).data) ∧
    (⟨"ERROR", "ffmpeg run failed",
      [("stderr", "Error opening input: No such file or directory\n"),
       ("err", "exit status 1")]⟩ : LogEvent) ∈ (generateRun c4Proc).2 :=
  ⟨rfl, rfl, by decide, by decide⟩

/-- C4 (amended). `Generate` returns `nil` exactly when both pipes are
created, the process starts, and it exits with status zero.  On a start
failure the start error itself is returned and logged.  On a non-zero exit
the returned error is the wait error `exit status N`; the captured
standard-error text is not part of the returned error but is attached,
together with the wait error, to the `ffmpeg run failed` log entry. -/
theorem c4_process_error_contract (p : ProcSpec) :
    ((generateRun p).1 = none ↔
      p.stdoutPipeErr = none ∧ p.stderrPipeErr = none ∧ p.startErr = none ∧
        p.exitCode = 0) ∧
    (∀ e, p.stdoutPipeErr = none → p.stderrPipeErr = none →
      p.startErr = some e →
      (generateRun p).1 = some e ∧
        (⟨"ERROR", "ffmpeg start failed", [("err", e)]⟩ : LogEvent) ∈
          (generateRun p).2) ∧
    (p.stdoutPipeErr = none → p.stderrPipeErr = none → p.startErr = none →
      p.exitCode ≠ 0 →
      (generateRun p).1 = some (waitErrMsg p.exitCode) ∧
        (⟨"ERROR", "ffmpeg run failed",
          [("stderr", capturedStderr p.stderrLines),
           ("err", waitErrMsg p.exitCode)]⟩ : LogEvent) ∈
          (generateRun p).2) := by
  obtain ⟨so, se, st, code, lines⟩ := p
  refine ⟨?_, ?_, ?_⟩
  · cases so with
    | some a => simp [generateRun]
    | none =>
      cases se with
      | some a => simp [generateRun]
      | none =>
        cases st with
        | some a => simp [generateRun]
        | none =>
          by_cases hc : code = 0
          · subst hc
            simp [generateRun]
          · simp [generateRun, hc]
  · intro e h1 h2 h3
    simp only at h1 h2 h3
    subst h1
    subst h2
    subst h3
    simp [generateRun]
  · intro h1 h2 h3 hc
    simp only at h1 h2 h3 hc
    subst h1
    subst h2
    subst h3
    simp [generateRun, hc]

/-- Witness for the amended C4 theorem at `c4Proc`. -/
theorem c4_witness :
    (generateRun c4Proc).1 = some (waitErrMsg c4Proc.exitCode) ∧
    (⟨"ERROR", "ffmpeg run failed",
      [("stderr", capturedStderr c4Proc.stderrLines),
       ("err", waitErrMsg c4Proc.exitCode)]⟩ : LogEvent) ∈
      (generateRun c4Proc).2 :=
  (c4_process_error_contract c4Proc).2.2 rfl rfl rfl (by decide)

/-! ## Claim C9: the progress listener (src ffmpeg.go `listenForProgressLogs`)

The three Go regexps are `progress=([\w.]+)`, `out_time=([^ ]+)` and
`speed=([^ ]+)`: a literal followed by a greedy nonempty character-class
capture.  `findTokenAfter` is their leftmost-match semantics on one line:
scan positions left to right, and at the first position where the literal is
a prefix and at least one class character follows, capture the maximal class
run.  The scanner loop keeps three string variables (Go zero value `""`) and
a `progressChanged` flag that is set on every line where the progress
pattern MATCHES - not only when the captured value differs from the stored
one - and emits one `Progress update` log per line with the flag set. -/

/-- Go regexp class `[\w.]` (ASCII word character or dot). -/
def goWordDotChar (c : Char) : Bool :=
  c.isAlpha || c.isDigit || c = '_' || c = '.'

/-- Go regexp class `[^ ]`. -/
def goNonSpaceChar (c : Char) : Bool :=
  c != ' '

/-- Leftmost match of `lit` followed by a nonempty greedy `cls`-run: the
captured group. -/
def findTokenAfter (lit : List Char) (cls : Char → Bool) :
    List Char → Option (List Char)
  | [] => none
  | c :: rest =>
    if lit.isPrefixOf (c :: rest) then
      let tok := ((c :: rest).drop lit.length).takeWhile cls
      if tok = [] then findTokenAfter lit cls rest
      else some tok
    else findTokenAfter lit cls rest

def progressToken (line : String) : Option String :=
  (findTokenAfter "progress=".data goWordDotChar line.data).map fun l => ⟨l⟩

def outTimeToken (line : String) : Option String :=
  (findTokenAfter "out_time=".data goNonSpaceChar line.data).map fun l => ⟨l⟩

def speedToken (line : String) : Option String :=
  (findTokenAfter "speed=".data goNonSpaceChar line.data).map fun l => ⟨l⟩

structure ProgressState where
  progress : String
  currTime : String
  speed : String
deriving DecidableEq

structure ProgressEvent where
  progress : String
  time : String
  speed : String
deriving DecidableEq

/-- One iteration of the scanner loop: update the three variables from the
line's matches and emit an event iff the progress pattern matched. -/
def stepLine (st : ProgressState) (line : String) :
    ProgressState × Option ProgressEvent :=
  let st1 := match progressToken line with
    | some t => { st with progress := t }
    | none => st
  let changed := (progressToken line).isSome
  let st2 := match outTimeToken line with
    | some t => { st1 with currTime := t }
    | none => st1
  let st3 := match speedToken line with
    | some t => { st2 with speed := t }
    | none => st2
  (st3, if changed then some ⟨st3.progress, st3.currTime, st3.speed⟩ else none)

def listenLoop : ProgressState → List String → List ProgressEvent
  | _, [] => []
  | st, line :: rest =>
    (match (stepLine st line).2 with
      | some e => [e]
      | none => []) ++ listenLoop (stepLine st line).1 rest

/-- Go `listenForProgressLogs` over the whole stdout line sequence. -/
def listenForProgressLogs (lines : List String) : List ProgressEvent :=
  listenLoop ⟨"", "", ""⟩ lines

/-- The claim's wording, for comparison: emit only when the progress token's
VALUE changes. -/
def specChangeEvents : ProgressState → List String → List ProgressEvent
  | _, [] => []
  | st, line :: rest =>
    (if (stepLine st line).1.progress ≠ st.progress then
      [⟨(stepLine st line).1.progress, (stepLine st line).1.currTime,
        (stepLine st line).1.speed⟩]
     else []) ++ specChangeEvents (stepLine st line).1 rest

set_option maxRecDepth 16384 in
/-- C9 counterexample: on two consecutive `progress=continue` lines the
listener emits two events (the flag is set on every pattern match), while
the claim's change-only reading emits one; the claim's per-change contract
is refuted at this input. -/
theorem c9_counterexample :
    listenForProgressLogs ["progress=continue", "progress=continue"] ≠
      specChangeEvents ⟨"", "", ""⟩
        ["progress=continue", "progress=continue"] ∧
    (listenForProgressLogs ["progress=continue", "progress=continue"]).length
      = 2 ∧
    (specChangeEvents ⟨"", "", ""⟩
      ["progress=continue", "progress=continue"]).length = 1 :=
  ⟨by decide, by decide, by decide⟩

theorem stepLine_emits_iff (st : ProgressState) (line : String) :
    (stepLine st line).2.isSome = (progressToken line).isSome := by
  cases hp : progressToken line <;> simp [stepLine, hp]

theorem listenLoop_length (lines : List String) : ∀ st : ProgressState,
    (listenLoop st lines).length =
      (lines.filter fun l => (progressToken l).isSome).length := by
  induction lines with
  | nil => intro st; rfl
  | cons line rest ih =>
    intro st
    show ((match (stepLine st line).2 with
        | some e => [e]
        | none => []) ++ listenLoop (stepLine st line).1 rest).length = _
    rw [List.length_append, ih (stepLine st line).1, List.filter_cons]
    cases hp : progressToken line with
    | none =>
      have h2 : (stepLine st line).2 = none := by
        have hx := stepLine_emits_iff st line
        rw [hp] at hx
        cases hy : (stepLine st line).2 with
        | none => rfl
        | some e => rw [hy] at hx; simp at hx
      rw [h2]
      simp [hp]
    | some t =>
      obtain ⟨e, he⟩ : ∃ e, (stepLine st line).2 = some e := by
        have hx := stepLine_emits_iff st line
        rw [hp] at hx
        exact Option.isSome_iff_exists.mp (by rw [hx]; rfl)
      rw [he]
      simp [hp]
      omega

/-- C9 (amended). The listener emits exactly one event per line matching the
progress pattern, even when the captured value is unchanged (so event count
= number of matching lines); a line matching none of the three patterns
leaves the state unchanged and emits nothing; and the listener is a total
function of the line sequence. -/
theorem c9_progress_listener_contract (st : ProgressState) (line : String)
    (lines : List String) :
    ((stepLine st line).2.isSome = (progressToken line).isSome) ∧
    (progressToken line = none → outTimeToken line = none →
      speedToken line = none → stepLine st line = (st, none)) ∧
    ((listenForProgressLogs lines).length =
      (lines.filter fun l => (progressToken l).isSome).length) := by
  refine ⟨stepLine_emits_iff st line, ?_, listenLoop_length lines _⟩
  intro h1 h2 h3
  simp [stepLine, h1, h2, h3]

/-- Witness for the amended C9 theorem on a non-matching line. -/
theorem c9_witness :
    stepLine ⟨"", "", ""⟩ "frame=10" = (⟨"", "", ""⟩, none) :=
  (c9_progress_listener_contract ⟨"", "", ""⟩ "frame=10" []).2.1
    (by decide) (by decide) (by decide)

end Ffthumbs
